import Mathlib

/-!
# Verification of the Zeno capture engine (`internal/pkg/crawl/capture.go`)

This file gives a shallow embedding of the capture engine of the Zeno web
crawler — the functions `executeGET`, `captureAsset`, `Capture` and
`deleteTempFile` from `internal/pkg/crawl/capture.go` — and proves properties
about it.

External collaborators (the HTTP clients, the WARC writer, `url.Parse`, the
document parser, the link extractors, the file system) are modelled as an
environment `Env` of pure oracle functions, and all side effects (counters,
the seen-set, log lines, issued requests, temp-file deletions) are made
explicit in a threaded state `CState` that carries an event trace.  Each
embedded function follows the Go source line by line.
-/

namespace Zeno

/-- `strings.Contains` on lists of characters: `sub` occurs inside the list. -/
def listContainsSub (sub : List Char) : List Char → Bool
  | [] => sub.isEmpty
  | c :: t => sub.isPrefixOf (c :: t) || listContainsSub sub t

/-- Go `strings.Contains s sub`. -/
def strContains (s sub : String) : Bool :=
  listContainsSub sub.data s.data

/-- `Modelled from the spec:` `utils.StringContainsSliceElements` lives in the
`internal/pkg/utils` package, which is not part of the sources at hand; the
spec says the direct client is used when "the request host matches any entry
in the proxy-bypass list", and the function's name says the match is
`strings.Contains`. -/
def stringContainsSliceElements (s : String) (elements : List String) : Bool :=
  elements.any (fun e => strContains s e)

/-- One pass of Go's `textproto.CanonicalMIMEHeaderKey`: the first letter and
any letter following a hyphen is upper-cased, every other letter is
lower-cased.  (The Go function leaves keys with invalid characters untouched;
the keys appearing in the engine are all valid, so that case is not needed.) -/
def canonKeyAux : Bool → List Char → List Char
  | _, [] => []
  | up, ch :: t => (if up then ch.toUpper else ch.toLower) :: canonKeyAux (ch = '-') t

/-- Go `textproto.CanonicalMIMEHeaderKey`, used by `http.Header.Get/Set`. -/
def canonKey (s : String) : String :=
  ⟨canonKeyAux true s.data⟩

/-- Go `http.Header.Get`: first value stored under the canonical key, `""` if
absent. -/
def headerGet (hs : List (String × String)) (k : String) : String :=
  match hs.find? (fun p => p.1 = canonKey k) with
  | some p => p.2
  | none => ""

/-- Go `http.Header.Set`: replace every value under the canonical key. -/
def headerSet (hs : List (String × String)) (k v : String) : List (String × String) :=
  (hs.filter (fun p => p.1 ≠ canonKey k)) ++ [(canonKey k, v)]

/-- A parsed URL (`net/url.URL`): the engine only reads its `Host` and its
`String()` rendering. -/
structure URLm where
  host : String
  str : String
deriving DecidableEq, Repr

/-- An HTTP response as the engine observes it: status code, headers, the
final request URL (`resp.Request.URL`) and the cookies carried by the
response. -/
structure HttpResponse where
  statusCode : Nat
  headers : List (String × String)
  requestURL : URLm
  cookies : List String
deriving DecidableEq, Repr

/-- An HTTP request (`net/http.Request`) as built by `http.NewRequest` and
mutated by `Header.Set` / `AddCookie`. -/
structure Request where
  method : String
  url : URLm
  headers : List (String × String)
  cookies : List String
deriving DecidableEq, Repr

/-- A parsed document (`goquery.Document`); the engine never inspects it
itself, it only hands it to the link extractors. -/
structure Doc where
  content : String
deriving DecidableEq, Repr

/-- `frontier.Item`: one URL to capture, with its parent lineage, type tag,
hop count, redirect count and dedup hash. -/
inductive Item where
  | mk (url : URLm) (parent : Option Item) (itemType : String)
      (hop : Nat) (redirect : Int) (hash : Nat)

def Item.url : Item → URLm
  | .mk u _ _ _ _ _ => u

def Item.parent : Item → Option Item
  | .mk _ p _ _ _ _ => p

def Item.itemType : Item → String
  | .mk _ _ t _ _ _ => t

def Item.hop : Item → Nat
  | .mk _ _ _ h _ _ => h

def Item.redirect : Item → Int
  | .mk _ _ _ _ r _ => r

def Item.hash : Item → Nat
  | .mk _ _ _ _ _ h => h

/-- `item.ParentItem.URL.String()`.  In Go a `nil` parent would panic; the
engine only evaluates this on items that have a parent (redirect children and
assets always do, and `Capture` guards the access behind `item.Hop > 0`). -/
def Item.parentURLString : Item → String
  | .mk _ (some p) _ _ _ _ => p.url.str
  | .mk _ none _ _ _ _ => ""

def Item.withRedirect : Item → Int → Item
  | .mk u p t h _ hs, r => .mk u p t h r hs

/-- The crawl configuration fields `executeGET`/`captureAsset`/`Capture`
read from the shared `Crawl` structure. -/
structure Crawl where
  hasClientProxied : Bool
  bypassProxy : List String
  warc : Bool
  userAgent : String
  maxRedirect : Int
  maxHops : Nat
  seencheck : Bool

/-- The pure oracles standing for the engine's external collaborators. -/
structure Env where
  /-- `c.Client.Do` (the direct client). -/
  clientDo : Request → Except String HttpResponse
  /-- `c.ClientProxied.Do`. -/
  clientProxiedDo : Request → Except String HttpResponse
  /-- `c.writeWARC` (defined outside `capture.go`): returns the temp path and
  an optional error. -/
  writeWARC : HttpResponse → String × Option String
  /-- `url.Parse` (also the URL parsing inside `http.NewRequest`). -/
  parseURL : String → Option URLm
  /-- `os.Remove`: an optional error. -/
  removeFile : String → Option String
  /-- `os.Open` plus reading: the temp file's contents. -/
  openFile : String → Except String String
  /-- `goquery.NewDocumentFromReader`. -/
  parseDocReader : String → Except String Doc
  /-- `goquery.NewDocumentFromResponse`. -/
  parseDocResponse : HttpResponse → Except String Doc
  /-- `extractOutlinks` (defined outside `capture.go`). -/
  extractOutlinks : URLm → Doc → Except String (List URLm)
  /-- `c.extractAssets` (defined outside `capture.go`). -/
  extractAssets : URLm → Doc → Except String (List URLm)
  /-- `Modelled from the spec:` the content hash `frontier.NewItem` (not in
  the sources at hand) computes for the dedup key. -/
  hashURL : URLm → Nat

/-- `Modelled from the spec:` `frontier.NewItem` (the item factory, §6 of the
spec) "constructs a Capture Item from a URL, parent item, type, and hop
count"; a fresh item starts a new redirect chain, so its redirect count is 0,
and it carries the content hash of its URL as dedup key. -/
def NewItem (env : Env) (url : URLm) (parent : Item) (itemType : String) (hop : Nat) : Item :=
  .mk url (some parent) itemType hop 0 (env.hashURL url)

/-- Every observable side effect of the engine, in program order. -/
inductive Event where
  /-- An HTTP request handed to `Client.Do` / `ClientProxied.Do`. -/
  | httpRequest (req : Request) (proxied : Bool)
  /-- `resp.Body.Close()`. -/
  | bodyClose
  /-- `c.Crawled.Incr(1)`. -/
  | crawledIncr
  /-- `os.Remove path` inside `deleteTempFile`. -/
  | removeAttempt (path : String)
  /-- the warning logged when `os.Remove` fails. -/
  | logDeleteError (path : String)
  /-- the generic warning `logWarning...Warning(item.URL.String())`. -/
  | logWarn (url : String)
  /-- the warning logged when opening/parsing the temp file fails. -/
  | logParseError (url : String) (path : String)
  /-- the warning logged when `extractOutlinks` fails. -/
  | logOutlinkExtractError (url : String)
  /-- the warning logged when `c.extractAssets` fails. -/
  | logAssetExtractError (url : String)
  /-- the warning (with crawl statistics) logged when `captureAsset` fails. -/
  | logAssetCaptureError (assetURL : String)
  /-- `c.logCrawlSuccess`. -/
  | logSuccess (status : Nat)
  /-- a `goquery` document parse (`true` = from the temp file). -/
  | parseDoc (fromFile : Bool)
  /-- a call to `extractOutlinks`. -/
  | extractOutlinksCall
  /-- a call to `c.extractAssets`. -/
  | extractAssetsCall
  /-- `go c.queueOutlinks(outlinks, item)`: the asynchronous hand-off of the
  outlinks; the orchestrator does not wait for it. -/
  | queueOutlinksAsync (n : Nat)
  /-- `c.Frontier.Seencheck.IsSeen`. -/
  | seenCheck (key : String) (found : Bool)
  /-- `c.Frontier.Seencheck.Seen`. -/
  | markSeen (key : String)
  /-- `c.Frontier.QueueCount.Incr n`. -/
  | queueIncr (n : Int)
  /-- a call to `c.captureAsset`. -/
  | captureAssetCall (url : String)
deriving DecidableEq, Repr

/-- The engine's mutable shared state: the two counters, the seen-set
(`Modelled from the spec:` the `frontier` package's Seencheck store is not in
the sources at hand; per §6 it is `isSeen(key) → bool` / `markSeen(key,
type)`, modelled as an association list from key to type), and the event
trace accumulated so far. -/
structure CState where
  crawled : Int
  queueCount : Int
  seen : List (String × String)
  events : List Event

/-- Append one event to the trace. -/
def CState.log (s : CState) (e : Event) : CState :=
  { s with events := s.events ++ [e] }

/-- `deleteTempFile` (capture.go:256): a no-op on the empty path, otherwise
`os.Remove`; a removal failure is logged and never propagated. -/
def deleteTempFile (env : Env) (path : String) (s : CState) : CState :=
  if path ≠ "" then
    let s := s.log (.removeAttempt path)
    match env.removeFile path with
    | some _ => s.log (.logDeleteError path)
    | none => s
  else s

/-- `Modelled from the spec:` `isRedirection` is defined outside
`capture.go`; the spec says redirects are followed "if the status code is a
redirection class", i.e. 3xx. -/
def isRedirection (code : Nat) : Bool :=
  300 ≤ code && code < 400

/-- Result of `executeGET`: Go returns `(resp, respPath, err)`; callers read
`resp` only when `err` is nil, and read `respPath` and `err` always. -/
inductive GetResult where
  | ok (resp : HttpResponse) (respPath : String)
  | err (respPath : String) (msg : String)
deriving DecidableEq, Repr

def GetResult.respPath : GetResult → String
  | .ok _ p => p
  | .err p _ => p

/-- The client-selection condition of capture.go:24 (negated: `true` means
the proxied client is used): the proxied client exists and the request host
matches no entry of the bypass list. -/
def reqProxied (c : Crawl) (req : Request) : Bool :=
  c.hasClientProxied && !(stringContainsSliceElements req.url.host c.bypassProxy)

/-- The request execution of capture.go:24-34: `c.Client.Do` or
`c.ClientProxied.Do` according to `reqProxied`. -/
def doRequest (c : Crawl) (env : Env) (req : Request) : Except String HttpResponse :=
  if reqProxied c req then env.clientProxiedDo req else env.clientDo req

/-- The archival step of capture.go:36-44: when WARC is enabled, write the
exchange; on failure close the body and carry the error, on success
increment the crawled counter.  Returns `(respPath, err)` and the updated
state. -/
def archiveStep (c : Crawl) (env : Env) (resp : HttpResponse) (s : CState) :
    (String × Option String) × CState :=
  if c.warc then
    match env.writeWARC resp with
    | (path, some e) => ((path, some e), s.log .bodyClose)
    | (path, none) => ((path, none), { s.log .crawledIncr with crawled := s.crawled + 1 })
  else (("", none), s)

/-- `executeGET` (capture.go:18): select a client, issue the GET, archive the
exchange when WARC is on (incrementing the crawled counter on success,
closing the body and propagating the error on failure), then follow one
redirect hop — unless the `Location` equals the current URL or the item's
redirect budget is exhausted, in which case the current response is returned
with a nil error.  The headers for the next hop are set, as in the source, on
`req` (the request just completed) and not on `newReq`. -/
def executeGET (c : Crawl) (env : Env) (parentItem : Item) (req : Request)
    (s : CState) : GetResult × CState :=
  -- client selection (capture.go:24) and request execution
  let s := s.log (.httpRequest req (reqProxied c req))
  match doRequest c env req with
  | .error e => (.err "" e, s)
  | .ok resp =>
    -- write response and request to WARC (capture.go:37)
    match archiveStep c env resp s with
    | ((respPath, some e), s) => (.err respPath e, s)
    | ((respPath, none), s) =>
      -- redirect handling (capture.go:47)
      if isRedirection resp.statusCode then
        if hred : headerGet resp.headers "location" = req.url.str ∨
            parentItem.redirect ≥ c.maxRedirect then
          (.ok resp respPath, s)
        else
          match env.parseURL (headerGet resp.headers "location") with
          | none => (.err respPath "url parse error", s)
          | some URL =>
            let newItem := (NewItem env URL parentItem parentItem.itemType
              parentItem.hop).withRedirect (parentItem.redirect + 1)
            match env.parseURL URL.str with
            | none => (.err respPath "http request error", s)
            | some reqURL =>
              let newReq : Request := ⟨"GET", reqURL, [], []⟩
              -- capture.go:66-67: the headers are set on `req`, the request
              -- of the hop just completed, which is not used again
              let _req : Request := ⟨req.method, req.url,
                headerSet (headerSet req.headers "User-Agent" c.userAgent)
                  "Referer" newItem.parentURLString, req.cookies⟩
              let s := deleteTempFile env respPath s
              executeGET c env newItem newReq s
      else (.ok resp respPath, s)
termination_by (c.maxRedirect - parentItem.redirect).toNat
decreasing_by
  push_neg at hred
  have h2 := hred.2
  obtain ⟨u, p, t, hp, r, hh⟩ := parentItem
  simp only [NewItem, Item.withRedirect, Item.redirect] at h2 ⊢
  omega

/-- The GET request `captureAsset` builds (capture.go:95-105): `Referer` set
to the parent item's URL, the page's cookies attached. -/
def assetRequest (item : Item) (reqURL : URLm) (cookies : List String) : Request :=
  ⟨"GET", reqURL, headerSet [] "Referer" item.parentURLString, cookies⟩

/-- The GET request `Capture` builds (capture.go:129-139): `Referer` set to
the parent item's URL only for items with a nonzero hop count and a parent
with a nonempty URL. -/
def captureRequest (item : Item) (reqURL : URLm) : Request :=
  ⟨"GET", reqURL,
    if item.hop > 0 && 0 < item.parentURLString.length then
      headerSet [] "Referer" item.parentURLString
    else [], []⟩

/-- The seencheck gate of `captureAsset` (capture.go:85-92): when
deduplication is enabled, look the item's hash key up in the seen-set;
`true` means "already seen, skip".  A fresh hash is marked seen right here,
before any fetch. -/
def seencheckGate (c : Crawl) (item : Item) (s : CState) : Bool × CState :=
  if c.seencheck then
    let key := toString item.hash
    let found := s.seen.any (fun p => p.1 = key)
    let s := s.log (.seenCheck key found)
    if found then (true, s)
    else (false, { s.log (.markSeen key) with seen := s.seen ++ [(key, item.itemType)] })
  else (false, s)

/-- The fetch part of `captureAsset` (capture.go:95-120): build the GET
request, delegate to `executeGET`, delete the temp file on both exits
(assets are never parsed), record the success observation. -/
def captureAssetFetch (c : Crawl) (env : Env) (item : Item) (cookies : List String)
    (s : CState) : Option String × CState :=
  -- prepare GET request (capture.go:95)
  match env.parseURL item.url.str with
  | none => (some "http request error", s)
  | some reqURL =>
    match executeGET c env item (assetRequest item reqURL cookies) s with
    | (.err respPath e, s) => (some e, deleteTempFile env respPath s)
    | (.ok resp respPath, s) =>
      -- deferred resp.Body.Close() runs at the return below
      let s := deleteTempFile env respPath s
      let s := s.log (.logSuccess resp.statusCode)
      (none, s.log .bodyClose)

/-- `captureAsset` (capture.go:79): seencheck gate (when enabled: return nil
at once if the item's hash key is already seen, otherwise mark it seen before
fetching), then build the GET request with the parent's URL as `Referer` and
the page's cookies attached, delegate to `executeGET`, and delete the temp
file (assets are never parsed). -/
def captureAsset (c : Crawl) (env : Env) (item : Item) (cookies : List String)
    (s : CState) : Option String × CState :=
  -- seencheck gate (capture.go:85)
  match seencheckGate c item s with
  | (true, s) => (none, s)
  | (false, s) => captureAssetFetch c env item cookies s

/-- The `for _, asset := range assets` loop of `Capture` (capture.go:230):
decrement the queue counter, skip self-referencing assets, otherwise build
the asset item and capture it, logging (and continuing) on failure. -/
def assetLoop (c : Crawl) (env : Env) (item : Item) (cookies : List String)
    (s : CState) : List URLm → CState
  | [] => s
  | asset :: rest =>
    let s := { s.log (.queueIncr (-1)) with queueCount := s.queueCount - 1 }
    -- just making sure we do not over archive (capture.go:234)
    if item.url.str = asset.str then
      assetLoop c env item cookies s rest
    else
      let newAsset := NewItem env asset item "asset" item.hop
      let s := s.log (.captureAssetCall asset.str)
      match captureAsset c env newAsset cookies s with
      | (some _, s) => assetLoop c env item cookies (s.log (.logAssetCaptureError asset.str)) rest
      | (none, s) => assetLoop c env item cookies s rest

/-- The asset phase of `Capture` (capture.go:220-253): extract asset URLs,
bump the queue-depth counter by their number and run the asset loop. -/
def assetPhase (c : Crawl) (env : Env) (item : Item) (resp : HttpResponse)
    (base : URLm) (doc : Doc) (s : CState) : CState :=
  -- extract and capture assets (capture.go:221)
  let s := s.log .extractAssetsCall
  match env.extractAssets base doc with
  | .error _ => (s.log (.logAssetExtractError item.url.str)).log .bodyClose
  | .ok assets =>
    let s := { s.log (.queueIncr assets.length) with
      queueCount := s.queueCount + assets.length }
    (assetLoop c env item resp.cookies s assets).log .bodyClose

/-- The post-parse phase of `Capture` (capture.go:208-253): outlink expansion
under the hop budget (asynchronous hand-off via `go c.queueOutlinks`), then
the asset phase. -/
def postDocPhase (c : Crawl) (env : Env) (item : Item) (resp : HttpResponse)
    (base : URLm) (doc : Doc) (s : CState) : CState :=
  -- extract outlinks (capture.go:209)
  let outlinkStep : Bool × CState :=
    if item.hop < c.maxHops then
      let s := s.log .extractOutlinksCall
      match env.extractOutlinks base doc with
      | .error _ => (false, s.log (.logOutlinkExtractError item.url.str))
      | .ok outlinks => (true, s.log (.queueOutlinksAsync outlinks.length))
    else (true, s)
  match outlinkStep with
  | (false, s) => s.log .bodyClose
  | (true, s) => assetPhase c env item resp base doc s

/-- The document-acquisition step of `Capture` (capture.go:170-206) and
everything after it: parse the temp file (or the live body when archival is
off) deleting the temp file in every case, then hand over to the outlink and
asset phases. -/
def capturePostFetch (c : Crawl) (env : Env) (item : Item) (resp : HttpResponse)
    (respPath : String) (base : URLm) (s : CState) : CState :=
  -- turn the response into a doc that we will scrape (capture.go:171)
  let docStep : Option Doc × CState :=
    if respPath ≠ "" then
      match env.openFile respPath with
      | .error _ => (none, deleteTempFile env respPath
          (s.log (.logParseError item.url.str respPath)))
      | .ok contents =>
        let s := s.log (.parseDoc true)
        match env.parseDocReader contents with
        | .error _ => (none, deleteTempFile env respPath
            (s.log (.logParseError item.url.str respPath)))
        | .ok doc => (some doc, deleteTempFile env respPath s)
    else
      let s := s.log (.parseDoc false)
      match env.parseDocResponse resp with
      | .error _ => (none, s.log (.logWarn item.url.str))
      | .ok doc => (some doc, s)
  match docStep with
  | (none, s) => s.log .bodyClose
  | (some doc, s) => postDocPhase c env item resp base doc s

/-- `Capture` (capture.go:124): the page capture orchestrator.  Build the GET
request (`Referer` only for non-root items with a parent URL), delegate to
`executeGET` (log + clean up on failure), record the success observation,
apply the content-type gate, resolve the base URL, and hand over to
`capturePostFetch`.  Every return point after the fetch succeeds runs the
deferred `resp.Body.Close()`, modelled as a final `.bodyClose` event. -/
def Capture (c : Crawl) (env : Env) (item : Item) (s : CState) : CState :=
  -- prepare GET request (capture.go:129)
  match env.parseURL item.url.str with
  | none => s.log (.logWarn item.url.str)
  | some reqURL =>
    match executeGET c env item (captureRequest item reqURL) s with
    | (.err respPath _, s) => deleteTempFile env respPath (s.log (.logWarn item.url.str))
    | (.ok resp respPath, s) =>
      -- deferred resp.Body.Close() runs at every return point below
      let s := s.log (.logSuccess resp.statusCode)
      -- content-type gate (capture.go:155)
      if strContains (headerGet resp.headers "Content-Type") "text/" = false then
        (deleteTempFile env respPath s).log .bodyClose
      else
        -- store the base URL (capture.go:161)
        match env.parseURL resp.requestURL.str with
        | none => (deleteTempFile env respPath (s.log (.logWarn item.url.str))).log .bodyClose
        | some base => capturePostFetch c env item resp respPath base s

/-- Events the Fetch Executor (`executeGET`, with its `deleteTempFile` calls)
can emit: network requests, body closes, crawled-counter increments and
temp-file removals.  In particular: no document parse, no link extraction,
no extraction-error log, no queue-counter change, no seen-set access. -/
def Event.isExec : Event → Bool
  | .httpRequest _ _ => true
  | .bodyClose => true
  | .crawledIncr => true
  | .removeAttempt _ => true
  | .logDeleteError _ => true
  | _ => false

/-- Is this event an HTTP request hand-off to a client? -/
def Event.isHttp : Event → Bool
  | .httpRequest _ _ => true
  | _ => false

/-- Number of HTTP requests issued in a trace. -/
def httpCount (l : List Event) : Nat :=
  (l.filter Event.isHttp).length

/-- Events of the scraping phase: document parses, link extraction and the
scheduling of outlinks and assets. -/
def Event.isScrape : Event → Bool
  | .parseDoc _ => true
  | .extractOutlinksCall => true
  | .extractAssetsCall => true
  | .queueOutlinksAsync _ => true
  | .captureAssetCall _ => true
  | _ => false

/-- Warnings logged for a failed document parse or a failed outlink/asset
extraction. -/
def Event.isExtractionErrorLog : Event → Bool
  | .logParseError _ _ => true
  | .logOutlinkExtractError _ => true
  | .logAssetExtractError _ => true
  | _ => false

/-- Outlink-expansion events: the call to `extractOutlinks` and the
asynchronous hand-off `go c.queueOutlinks(...)`. -/
def Event.isOutlink : Event → Bool
  | .extractOutlinksCall => true
  | .queueOutlinksAsync _ => true
  | _ => false

/-- Events the Asset Capturer (`captureAsset`) can emit: the seencheck
accesses, the fetch-executor events and the capture-success observation. -/
def Event.isAssetScope : Event → Bool
  | .seenCheck _ _ => true
  | .markSeen _ => true
  | .httpRequest _ _ => true
  | .bodyClose => true
  | .crawledIncr => true
  | .removeAttempt _ => true
  | .logDeleteError _ => true
  | .logSuccess _ => true
  | _ => false

/-- Events the asset loop of `Capture` can emit: asset-capturer events plus
the per-iteration queue decrement, the capture calls and per-asset failure
logs. -/
def Event.isLoopScope : Event → Bool
  | .queueIncr n => n = -1
  | .captureAssetCall _ => true
  | .logAssetCaptureError _ => true
  | e => e.isAssetScope

/-- The state left by a successful temp-file document acquisition
(capture.go:172-196): the parse event, then the temp file is deleted. -/
def docFileOkState (env : Env) (respPath : String) (s : CState) : CState :=
  deleteTempFile env respPath (s.log (.parseDoc true))

/-- Fetch-executor events are asset-capturer events. -/
theorem isExec_isAssetScope (e : Event) (h : e.isExec = true) :
    e.isAssetScope = true := by
  cases e <;> simp_all [Event.isExec, Event.isAssetScope]

/-- Asset-capturer events are asset-loop events. -/
theorem isAssetScope_isLoopScope (e : Event) (h : e.isAssetScope = true) :
    e.isLoopScope = true := by
  cases e <;> simp_all [Event.isAssetScope, Event.isLoopScope]

/-- Fetch-executor events are no scraping events, no extraction-error logs
and no outlink events. -/
theorem isExec_not_scrape (e : Event) (h : e.isExec = true) :
    e.isScrape = false ∧ e.isExtractionErrorLog = false ∧ e.isOutlink = false := by
  cases e <;> simp_all [Event.isExec, Event.isScrape, Event.isExtractionErrorLog,
    Event.isOutlink]

/-- Asset-loop events are no outlink events. -/
theorem isLoopScope_not_outlink (e : Event) (h : e.isLoopScope = true) :
    e.isOutlink = false := by
  cases e <;> simp_all [Event.isLoopScope, Event.isAssetScope, Event.isOutlink]

/-- Asset-capturer events are never a queue-depth change. -/
theorem isAssetScope_not_queueIncr (e : Event) (h : e.isAssetScope = true) :
    ∀ n : Int, e ≠ .queueIncr n := by
  cases e <;> simp_all [Event.isAssetScope]

/-! Concrete fixtures: a small world with two pages used to evaluate the
engine on closed inputs. -/

def urlA : URLm := ⟨"example.com", "http://example.com/a"⟩

def urlB : URLm := ⟨"example.com", "http://example.com/b"⟩

/-- A `301 Moved Permanently` from `urlA` to `urlB`. -/
def respRedirect : HttpResponse :=
  ⟨301, [("Location", "http://example.com/b")], urlA, []⟩

/-- A final `200 text/html` response at `urlB`. -/
def respOk : HttpResponse :=
  ⟨200, [("Content-Type", "text/html")], urlB, ["sid=1"]⟩

/-- A `200 image/png` response at `urlA`. -/
def respPng : HttpResponse :=
  ⟨200, [("Content-Type", "image/png")], urlA, []⟩

/-- A small crawl configuration: no proxy, no WARC, five redirects, three
hops, no seencheck. -/
def baseCrawl : Crawl := ⟨false, [], false, "TestUA", 5, 3, false⟩

/-- `baseCrawl` with archival enabled. -/
def warcCrawl : Crawl := { baseCrawl with warc := true }

/-- `baseCrawl` with deduplication enabled. -/
def scCrawl : Crawl := { baseCrawl with seencheck := true }

/-- The empty starting state. -/
def s0 : CState := ⟨0, 0, [], []⟩

/-- A seed item at `urlA`. -/
def itemA : Item := .mk urlA none "seed" 0 0 7

/-- An asset item at `urlB` discovered from `itemA`. -/
def itemAsset : Item := .mk urlB (some itemA) "asset" 0 0 7

/-- A page item whose hop count has reached the maximum. -/
def itemHop3 : Item := .mk urlA none "seed" 3 0 7

/-- A page item whose redirect budget is exhausted. -/
def itemMaxRedirect : Item := .mk urlA (some itemA) "seed" 0 5 7

/-- The base environment: `urlA` answers with the redirect to `urlB`, which
answers `200 text/html`; archival, file system and extraction all succeed
trivially. -/
def baseEnv : Env where
  clientDo := fun req =>
    if req.url.str = "http://example.com/a" then .ok respRedirect else .ok respOk
  clientProxiedDo := fun _ => .error "no proxied client"
  writeWARC := fun _ => ("", none)
  parseURL := fun u =>
    if u = "http://example.com/a" then some urlA
    else if u = "http://example.com/b" then some urlB
    else none
  removeFile := fun _ => none
  openFile := fun _ => .ok "file-contents"
  parseDocReader := fun _ => .ok ⟨"doc"⟩
  parseDocResponse := fun _ => .ok ⟨"doc"⟩
  extractOutlinks := fun _ _ => .ok []
  extractAssets := fun _ _ => .ok []
  hashURL := fun _ => 7

/-- `baseEnv` with a WARC writer that yields one temp path per hop. -/
def warcEnv : Env :=
  { baseEnv with writeWARC := fun r =>
      (if r.statusCode = 301 then "tmp1" else "tmp2", none) }

/-- `baseEnv` with a failing WARC writer. -/
def failWarcEnv : Env :=
  { baseEnv with writeWARC := fun _ => ("tmpf", some "disk full") }

/-- `baseEnv` but every fetch answers `200 image/png`. -/
def pngEnv : Env :=
  { baseEnv with clientDo := fun _ => .ok respPng }

/-- `baseEnv` with failing outlink extraction. -/
def failOutlinkEnv : Env :=
  { baseEnv with extractOutlinks := fun _ _ => .error "bad markup" }

/-- `baseEnv` extracting two assets: `urlB` and the page itself (`urlA`). -/
def assetsEnv : Env :=
  { baseEnv with extractAssets := fun _ _ => .ok [urlB, urlA] }

/-- A bare GET request for `urlA`, as `http.NewRequest` builds it. -/
def reqA : Request := ⟨"GET", urlA, [], []⟩

/-- A bare GET request for `urlB`. -/
def reqB : Request := ⟨"GET", urlB, [], []⟩

/-- A state whose seen-set already holds the hash key `"7"`. -/
def seenS : CState := ⟨0, 0, [("7", "asset")], []⟩

/-- The state after the first archived hop of `warcEnv`: one request event,
one crawled increment. -/
def sHop1 : CState := ⟨1, 0, [], [.httpRequest reqA false, .crawledIncr]⟩

theorem httpCount_append (l₁ l₂ : List Event) :
    httpCount (l₁ ++ l₂) = httpCount l₁ + httpCount l₂ := by
  simp [httpCount, List.filter_append]

theorem httpCount_eq_zero (l : List Event) (h : ∀ e ∈ l, e.isHttp = false) :
    httpCount l = 0 := by
  simp only [httpCount, List.length_eq_zero, List.filter_eq_nil_iff]
  intro e he
  simp [h e he]

@[simp] theorem CState.log_crawled (s : CState) (e : Event) :
    (s.log e).crawled = s.crawled := rfl

@[simp] theorem CState.log_queueCount (s : CState) (e : Event) :
    (s.log e).queueCount = s.queueCount := rfl

@[simp] theorem CState.log_seen (s : CState) (e : Event) :
    (s.log e).seen = s.seen := rfl

@[simp] theorem CState.log_events (s : CState) (e : Event) :
    (s.log e).events = s.events ++ [e] := rfl

@[simp] theorem Item.url_mk (u : URLm) (p : Option Item) (t : String)
    (h : Nat) (r : Int) (hs : Nat) : (Item.mk u p t h r hs).url = u := rfl

@[simp] theorem Item.hop_mk (u : URLm) (p : Option Item) (t : String)
    (h : Nat) (r : Int) (hs : Nat) : (Item.mk u p t h r hs).hop = h := rfl

@[simp] theorem Item.redirect_mk (u : URLm) (p : Option Item) (t : String)
    (h : Nat) (r : Int) (hs : Nat) : (Item.mk u p t h r hs).redirect = r := rfl

@[simp] theorem Item.hash_mk (u : URLm) (p : Option Item) (t : String)
    (h : Nat) (r : Int) (hs : Nat) : (Item.mk u p t h r hs).hash = hs := rfl

@[simp] theorem Item.itemType_mk (u : URLm) (p : Option Item) (t : String)
    (h : Nat) (r : Int) (hs : Nat) : (Item.mk u p t h r hs).itemType = t := rfl

@[simp] theorem Item.withRedirect_redirect (i : Item) (r : Int) :
    (i.withRedirect r).redirect = r := by cases i; rfl

@[simp] theorem Item.withRedirect_hop (i : Item) (r : Int) :
    (i.withRedirect r).hop = i.hop := by cases i; rfl

@[simp] theorem Item.withRedirect_url (i : Item) (r : Int) :
    (i.withRedirect r).url = i.url := by cases i; rfl

@[simp] theorem NewItem_redirect (env : Env) (u : URLm) (p : Item) (t : String)
    (h : Nat) : (NewItem env u p t h).redirect = 0 := rfl

@[simp] theorem NewItem_hop (env : Env) (u : URLm) (p : Item) (t : String)
    (h : Nat) : (NewItem env u p t h).hop = h := rfl

@[simp] theorem NewItem_url (env : Env) (u : URLm) (p : Item) (t : String)
    (h : Nat) : (NewItem env u p t h).url = u := rfl

/-- The parent URL of a redirect child is the URL of the item it was derived
from (`newItem.ParentItem.URL.String()` at capture.go:67). -/
@[simp] theorem NewItem_parentURLString (env : Env) (u : URLm) (p : Item)
    (t : String) (h : Nat) : (NewItem env u p t h).parentURLString = p.url.str := rfl

@[simp] theorem Item.withRedirect_parentURLString (i : Item) (r : Int) :
    (i.withRedirect r).parentURLString = i.parentURLString := by
  cases i with
  | mk u p t h r' hs => cases p <;> rfl

/-- `deleteTempFile` only logs removal events — no network request — and
never touches the counters or the seen-set. -/
theorem deleteTempFile_spec (env : Env) (p : String) (s : CState) :
    (deleteTempFile env p s).crawled = s.crawled ∧
    (deleteTempFile env p s).queueCount = s.queueCount ∧
    (deleteTempFile env p s).seen = s.seen ∧
    ∃ t, (deleteTempFile env p s).events = s.events ++ t ∧
      ∀ e ∈ t, e.isExec = true ∧ e.isHttp = false := by
  unfold deleteTempFile
  split
  · cases env.removeFile p with
    | some e => exact ⟨rfl, rfl, rfl, [.removeAttempt p, .logDeleteError p],
        by simp [CState.log], by simp [Event.isExec, Event.isHttp]⟩
    | none => exact ⟨rfl, rfl, rfl, [.removeAttempt p],
        by simp [CState.log], by simp [Event.isExec, Event.isHttp]⟩
  · exact ⟨rfl, rfl, rfl, [], by simp, by simp⟩

/-- On a nonempty path, `deleteTempFile` records the removal attempt. -/
theorem deleteTempFile_attempt (env : Env) (p : String) (s : CState)
    (h : p ≠ "") : .removeAttempt p ∈ (deleteTempFile env p s).events := by
  unfold deleteTempFile
  rw [if_pos h]
  cases env.removeFile p <;> simp

/-- `archiveStep` only logs body-close / crawled-increment events — no
network request — and never touches the queue counter or the seen-set. -/
theorem archiveStep_spec (c : Crawl) (env : Env) (resp : HttpResponse)
    (s : CState) (p : String) (e? : Option String) (s' : CState)
    (h : archiveStep c env resp s = ((p, e?), s')) :
    s'.queueCount = s.queueCount ∧ s'.seen = s.seen ∧
    ∃ t, s'.events = s.events ++ t ∧ ∀ e ∈ t, e.isExec = true ∧ e.isHttp = false := by
  unfold archiveStep at h
  split at h
  · split at h <;> (injection h with h1 h2; subst h2)
    · exact ⟨rfl, rfl, [.bodyClose], by simp [CState.log],
        by simp [Event.isExec, Event.isHttp]⟩
    · exact ⟨rfl, rfl, [.crawledIncr], by simp [CState.log],
        by simp [Event.isExec, Event.isHttp]⟩
  · injection h with h1 h2
    subst h2
    exact ⟨rfl, rfl, [], by simp, by simp⟩

/-- `archiveStep` with WARC on and a failing write: the body is closed, the
path and error are carried, the crawled counter is untouched. -/
theorem archiveStep_warc_fail (c : Crawl) (env : Env) (resp : HttpResponse)
    (s : CState) (p e : String) (hw : c.warc = true)
    (hfail : env.writeWARC resp = (p, some e)) :
    archiveStep c env resp s = ((p, some e), s.log .bodyClose) := by
  unfold archiveStep
  rw [if_pos hw, hfail]

/-- `archiveStep` with WARC on and a successful write: the crawled counter is
incremented by one. -/
theorem archiveStep_warc_ok (c : Crawl) (env : Env) (resp : HttpResponse)
    (s : CState) (p : String) (hw : c.warc = true)
    (hok : env.writeWARC resp = (p, none)) :
    archiveStep c env resp s =
      ((p, none), { s.log .crawledIncr with crawled := s.crawled + 1 }) := by
  unfold archiveStep
  rw [if_pos hw, hok]

/-- `archiveStep` with WARC off: no path, no error, nothing happens. -/
theorem archiveStep_off (c : Crawl) (env : Env) (resp : HttpResponse)
    (s : CState) (hw : c.warc = false) :
    archiveStep c env resp s = (("", none), s) := by
  unfold archiveStep
  rw [hw]
  simp

/-- `executeGET`, case "transport error" (capture.go:26/31): the error is
returned as-is, after the single request event. -/
theorem executeGET_transport_error (c : Crawl) (env : Env) (parentItem : Item)
    (req : Request) (s : CState) (e : String)
    (hdo : doRequest c env req = .error e) :
    executeGET c env parentItem req s =
      (.err "" e, s.log (.httpRequest req (reqProxied c req))) := by
  rw [executeGET.eq_def, hdo]

/-- `executeGET`, case "archival failure" (capture.go:39): the body is closed
and the archival error is propagated. -/
theorem executeGET_archive_fail (c : Crawl) (env : Env) (parentItem : Item)
    (req : Request) (s : CState) (resp : HttpResponse) (p e : String) (s' : CState)
    (hdo : doRequest c env req = .ok resp)
    (ha : archiveStep c env resp (s.log (.httpRequest req (reqProxied c req))) =
      ((p, some e), s')) :
    executeGET c env parentItem req s = (.err p e, s') := by
  rw [executeGET.eq_def, hdo]
  simp only [ha]

/-- `executeGET`, case "no redirect" (capture.go:76): the response and its
archive path are returned with a nil error. -/
theorem executeGET_no_redirect (c : Crawl) (env : Env) (parentItem : Item)
    (req : Request) (s : CState) (resp : HttpResponse) (p : String) (s' : CState)
    (hdo : doRequest c env req = .ok resp)
    (ha : archiveStep c env resp (s.log (.httpRequest req (reqProxied c req))) =
      ((p, none), s'))
    (hr : isRedirection resp.statusCode = false) :
    executeGET c env parentItem req s = (.ok resp p, s') := by
  rw [executeGET.eq_def, hdo]
  simp only [ha, hr]
  simp

/-- `executeGET`, case "redirect not followed" (capture.go:48-50): on a
redirect whose `Location` equals the current URL, or with the redirect
budget exhausted, the current redirect response and its archive path are
returned with a nil error. -/
theorem executeGET_redirect_stop (c : Crawl) (env : Env) (parentItem : Item)
    (req : Request) (s : CState) (resp : HttpResponse) (p : String) (s' : CState)
    (hdo : doRequest c env req = .ok resp)
    (ha : archiveStep c env resp (s.log (.httpRequest req (reqProxied c req))) =
      ((p, none), s'))
    (hr : isRedirection resp.statusCode = true)
    (hstop : headerGet resp.headers "location" = req.url.str ∨
      parentItem.redirect ≥ c.maxRedirect) :
    executeGET c env parentItem req s = (.ok resp p, s') := by
  rw [executeGET.eq_def, hdo]
  simp only [ha, hr, if_true]
  rw [dif_pos hstop]

/-- `executeGET`, case "redirect followed" (capture.go:52-74): the superseded
hop's temp file is deleted and the executor recurses on the new item (same
parent, type and hop, redirect count incremented by one) with a freshly
built GET request that carries no headers. -/
theorem executeGET_redirect_follow (c : Crawl) (env : Env) (parentItem : Item)
    (req : Request) (s : CState) (resp : HttpResponse) (p : String) (s' : CState)
    (URL reqURL : URLm)
    (hdo : doRequest c env req = .ok resp)
    (ha : archiveStep c env resp (s.log (.httpRequest req (reqProxied c req))) =
      ((p, none), s'))
    (hr : isRedirection resp.statusCode = true)
    (hstop : ¬(headerGet resp.headers "location" = req.url.str ∨
      parentItem.redirect ≥ c.maxRedirect))
    (hu : env.parseURL (headerGet resp.headers "location") = some URL)
    (hu2 : env.parseURL URL.str = some reqURL) :
    executeGET c env parentItem req s =
      executeGET c env
        ((NewItem env URL parentItem parentItem.itemType parentItem.hop).withRedirect
          (parentItem.redirect + 1))
        ⟨"GET", reqURL, [], []⟩
        (deleteTempFile env p s') := by
  rw [executeGET.eq_def, hdo]
  simp only [ha, hr, if_true]
  rw [dif_neg hstop]
  simp only [hu, hu2]

/-- `executeGET`, case "malformed Location" (capture.go:52-55): the chain is
aborted, the current hop's path and the parse error are propagated. -/
theorem executeGET_location_fail (c : Crawl) (env : Env) (parentItem : Item)
    (req : Request) (s : CState) (resp : HttpResponse) (p : String) (s' : CState)
    (hdo : doRequest c env req = .ok resp)
    (ha : archiveStep c env resp (s.log (.httpRequest req (reqProxied c req))) =
      ((p, none), s'))
    (hr : isRedirection resp.statusCode = true)
    (hstop : ¬(headerGet resp.headers "location" = req.url.str ∨
      parentItem.redirect ≥ c.maxRedirect))
    (hu : env.parseURL (headerGet resp.headers "location") = none) :
    executeGET c env parentItem req s = (.err p "url parse error", s') := by
  rw [executeGET.eq_def, hdo]
  simp only [ha, hr, if_true]
  rw [dif_neg hstop]
  simp only [hu]

/-- `executeGET`, case "request construction failure" (capture.go:61-64): the
chain is aborted, the current hop's path and the error are propagated. -/
theorem executeGET_newreq_fail (c : Crawl) (env : Env) (parentItem : Item)
    (req : Request) (s : CState) (resp : HttpResponse) (p : String) (s' : CState)
    (URL : URLm)
    (hdo : doRequest c env req = .ok resp)
    (ha : archiveStep c env resp (s.log (.httpRequest req (reqProxied c req))) =
      ((p, none), s'))
    (hr : isRedirection resp.statusCode = true)
    (hstop : ¬(headerGet resp.headers "location" = req.url.str ∨
      parentItem.redirect ≥ c.maxRedirect))
    (hu : env.parseURL (headerGet resp.headers "location") = some URL)
    (hu2 : env.parseURL URL.str = none) :
    executeGET c env parentItem req s = (.err p "http request error", s') := by
  rw [executeGET.eq_def, hdo]
  simp only [ha, hr, if_true]
  rw [dif_neg hstop]
  simp only [hu, hu2]

/-- The global invariants of `executeGET`: it never touches the queue-depth
counter or the seen-set, it only appends Fetch-Executor events to the trace,
and the number of HTTP requests it issues is bounded by the remaining
redirect budget plus one — the redirect recursion terminates. -/
theorem executeGET_state (c : Crawl) (env : Env) (parentItem : Item)
    (req : Request) (s : CState) :
    (executeGET c env parentItem req s).2.queueCount = s.queueCount ∧
    (executeGET c env parentItem req s).2.seen = s.seen ∧
    ∃ t, (executeGET c env parentItem req s).2.events = s.events ++ t ∧
      (∀ e ∈ t, e.isExec = true) ∧
      httpCount t ≤ (c.maxRedirect - parentItem.redirect).toNat + 1 := by
  induction parentItem, req, s using executeGET.induct c env with
  | case1 parentItem req s e hdo =>
    rw [executeGET_transport_error c env parentItem req s e hdo]
    refine ⟨rfl, rfl, [.httpRequest req (reqProxied c req)], by simp, ?_, ?_⟩
    · intro ev hev
      rcases List.mem_singleton.mp hev with rfl
      rfl
    · have h1 : httpCount [Event.httpRequest req (reqProxied c req)] = 1 := rfl
      omega
  | case2 parentItem req s s₁ resp hdo respPath e s₂ ha =>
    have hs₁ : s₁ = s.log (.httpRequest req (reqProxied c req)) := rfl
    rw [hs₁] at ha
    rw [executeGET_archive_fail c env parentItem req s resp respPath e s₂ hdo ha]
    obtain ⟨hq, hn, t, ht, hexec⟩ := archiveStep_spec c env resp _ respPath _ s₂ ha
    refine ⟨by rw [hq]; simp, by rw [hn]; simp,
      .httpRequest req (reqProxied c req) :: t, by rw [ht]; simp, ?_, ?_⟩
    · intro ev hev
      rcases List.mem_cons.mp hev with rfl | h
      · rfl
      · exact (hexec ev h).1
    · have h0 : httpCount t = 0 := httpCount_eq_zero t (fun ev hev => (hexec ev hev).2)
      have h1 : httpCount (Event.httpRequest req (reqProxied c req) :: t) =
          httpCount [Event.httpRequest req (reqProxied c req)] + httpCount t :=
        httpCount_append [Event.httpRequest req (reqProxied c req)] t
      have h2 : httpCount [Event.httpRequest req (reqProxied c req)] = 1 := rfl
      omega
  | case3 parentItem req s s₁ resp hdo respPath s₂ ha hr hstop =>
    have hs₁ : s₁ = s.log (.httpRequest req (reqProxied c req)) := rfl
    rw [hs₁] at ha
    rw [executeGET_redirect_stop c env parentItem req s resp respPath s₂ hdo ha hr hstop]
    obtain ⟨hq, hn, t, ht, hexec⟩ := archiveStep_spec c env resp _ respPath _ s₂ ha
    refine ⟨by rw [hq]; simp, by rw [hn]; simp,
      .httpRequest req (reqProxied c req) :: t, by rw [ht]; simp, ?_, ?_⟩
    · intro ev hev
      rcases List.mem_cons.mp hev with rfl | h
      · rfl
      · exact (hexec ev h).1
    · have h0 : httpCount t = 0 := httpCount_eq_zero t (fun ev hev => (hexec ev hev).2)
      have h1 : httpCount (Event.httpRequest req (reqProxied c req) :: t) =
          httpCount [Event.httpRequest req (reqProxied c req)] + httpCount t :=
        httpCount_append [Event.httpRequest req (reqProxied c req)] t
      have h2 : httpCount [Event.httpRequest req (reqProxied c req)] = 1 := rfl
      omega
  | case4 parentItem req s s₁ resp hdo respPath s₂ ha hr hstop hu =>
    have hs₁ : s₁ = s.log (.httpRequest req (reqProxied c req)) := rfl
    rw [hs₁] at ha
    rw [executeGET_location_fail c env parentItem req s resp respPath s₂ hdo ha hr hstop hu]
    obtain ⟨hq, hn, t, ht, hexec⟩ := archiveStep_spec c env resp _ respPath _ s₂ ha
    refine ⟨by rw [hq]; simp, by rw [hn]; simp,
      .httpRequest req (reqProxied c req) :: t, by rw [ht]; simp, ?_, ?_⟩
    · intro ev hev
      rcases List.mem_cons.mp hev with rfl | h
      · rfl
      · exact (hexec ev h).1
    · have h0 : httpCount t = 0 := httpCount_eq_zero t (fun ev hev => (hexec ev hev).2)
      have h1 : httpCount (Event.httpRequest req (reqProxied c req) :: t) =
          httpCount [Event.httpRequest req (reqProxied c req)] + httpCount t :=
        httpCount_append [Event.httpRequest req (reqProxied c req)] t
      have h2 : httpCount [Event.httpRequest req (reqProxied c req)] = 1 := rfl
      omega
  | case5 parentItem req s s₁ resp hdo respPath s₂ ha hr hstop URL hu hu2 =>
    have hs₁ : s₁ = s.log (.httpRequest req (reqProxied c req)) := rfl
    rw [hs₁] at ha
    rw [executeGET_newreq_fail c env parentItem req s resp respPath s₂ URL hdo ha hr hstop hu hu2]
    obtain ⟨hq, hn, t, ht, hexec⟩ := archiveStep_spec c env resp _ respPath _ s₂ ha
    refine ⟨by rw [hq]; simp, by rw [hn]; simp,
      .httpRequest req (reqProxied c req) :: t, by rw [ht]; simp, ?_, ?_⟩
    · intro ev hev
      rcases List.mem_cons.mp hev with rfl | h
      · rfl
      · exact (hexec ev h).1
    · have h0 : httpCount t = 0 := httpCount_eq_zero t (fun ev hev => (hexec ev hev).2)
      have h1 : httpCount (Event.httpRequest req (reqProxied c req) :: t) =
          httpCount [Event.httpRequest req (reqProxied c req)] + httpCount t :=
        httpCount_append [Event.httpRequest req (reqProxied c req)] t
      have h2 : httpCount [Event.httpRequest req (reqProxied c req)] = 1 := rfl
      omega
  | case6 parentItem req s s₁ resp hdo respPath s₂ ha hr hstop URL hu newItem reqURL hu2 newReq s₃ ih =>
    have hs₁ : s₁ = s.log (.httpRequest req (reqProxied c req)) := rfl
    rw [hs₁] at ha
    have hni : newItem = (NewItem env URL parentItem parentItem.itemType
      parentItem.hop).withRedirect (parentItem.redirect + 1) := rfl
    have hnr : newReq = (⟨"GET", reqURL, [], []⟩ : Request) := rfl
    have hs₃ : s₃ = deleteTempFile env respPath s₂ := rfl
    rw [hni, hnr, hs₃] at ih
    rw [executeGET_redirect_follow c env parentItem req s resp respPath s₂ URL reqURL
      hdo ha hr hstop hu hu2]
    obtain ⟨hq₃, hn₃, t₃, ht₃, hexec₃, hcnt₃⟩ := ih
    obtain ⟨_, hq₂, hn₂, t₂, ht₂, hexec₂⟩ := deleteTempFile_spec env respPath s₂
    obtain ⟨hq₁, hn₁, t₁, ht₁, hexec₁⟩ := archiveStep_spec c env resp _ respPath _ s₂ ha
    refine ⟨by rw [hq₃, hq₂, hq₁]; simp, by rw [hn₃, hn₂, hn₁]; simp,
      .httpRequest req (reqProxied c req) :: (t₁ ++ t₂ ++ t₃),
      by rw [ht₃, ht₂, ht₁]; simp, ?_, ?_⟩
    · intro ev hev
      rcases List.mem_cons.mp hev with rfl | h
      · rfl
      · rcases List.mem_append.mp h with h' | h'
        · rcases List.mem_append.mp h' with h'' | h''
          · exact (hexec₁ ev h'').1
          · exact (hexec₂ ev h'').1
        · exact hexec₃ ev h'
    · have h₁ : httpCount t₁ = 0 := httpCount_eq_zero t₁ (fun ev hev => (hexec₁ ev hev).2)
      have h₂ : httpCount t₂ = 0 := httpCount_eq_zero t₂ (fun ev hev => (hexec₂ ev hev).2)
      have hfollow : parentItem.redirect < c.maxRedirect := by
        push_neg at hstop
        exact hstop.2
      simp only [Item.withRedirect_redirect] at hcnt₃
      have e1 : httpCount (Event.httpRequest req (reqProxied c req) :: (t₁ ++ t₂ ++ t₃)) =
          httpCount [Event.httpRequest req (reqProxied c req)] + httpCount (t₁ ++ t₂ ++ t₃) :=
        httpCount_append [Event.httpRequest req (reqProxied c req)] (t₁ ++ t₂ ++ t₃)
      have e2 := httpCount_append (t₁ ++ t₂) t₃
      have e3 := httpCount_append t₁ t₂
      have h2 : httpCount [Event.httpRequest req (reqProxied c req)] = 1 := rfl
      omega
  | case7 parentItem req s s₁ resp hdo respPath s₂ ha hr =>
    have hs₁ : s₁ = s.log (.httpRequest req (reqProxied c req)) := rfl
    rw [hs₁] at ha
    rw [executeGET_no_redirect c env parentItem req s resp respPath s₂ hdo ha
      (by simpa using hr)]
    obtain ⟨hq, hn, t, ht, hexec⟩ := archiveStep_spec c env resp _ respPath _ s₂ ha
    refine ⟨by rw [hq]; simp, by rw [hn]; simp,
      .httpRequest req (reqProxied c req) :: t, by rw [ht]; simp, ?_, ?_⟩
    · intro ev hev
      rcases List.mem_cons.mp hev with rfl | h
      · rfl
      · exact (hexec ev h).1
    · have h0 : httpCount t = 0 := httpCount_eq_zero t (fun ev hev => (hexec ev hev).2)
      have h1 : httpCount (Event.httpRequest req (reqProxied c req) :: t) =
          httpCount [Event.httpRequest req (reqProxied c req)] + httpCount t :=
        httpCount_append [Event.httpRequest req (reqProxied c req)] t
      have h2 : httpCount [Event.httpRequest req (reqProxied c req)] = 1 := rfl
      omega

/-- With deduplication off the gate does nothing. -/
theorem seencheckGate_off (c : Crawl) (item : Item) (s : CState)
    (h : c.seencheck = false) : seencheckGate c item s = (false, s) := by
  simp [seencheckGate, h]

/-- With deduplication on and the hash already seen, the gate reports `true`
after the single read. -/
theorem seencheckGate_seen (c : Crawl) (item : Item) (s : CState)
    (h : c.seencheck = true)
    (hf : s.seen.any (fun p => p.1 = toString item.hash) = true) :
    seencheckGate c item s = (true, s.log (.seenCheck (toString item.hash) true)) := by
  simp [seencheckGate, h, hf]

/-- With deduplication on and the hash not seen, the gate marks the hash seen
and reports `false`. -/
theorem seencheckGate_new (c : Crawl) (item : Item) (s : CState)
    (h : c.seencheck = true)
    (hf : s.seen.any (fun p => p.1 = toString item.hash) = false) :
    seencheckGate c item s = (false,
      { (s.log (.seenCheck (toString item.hash) false)).log
          (.markSeen (toString item.hash)) with
        seen := s.seen ++ [(toString item.hash, item.itemType)] }) := by
  simp [seencheckGate, h, hf, CState.log]

/-- The fetch part of the Asset Capturer when the URL does not parse. -/
theorem captureAssetFetch_nourl (c : Crawl) (env : Env) (item : Item)
    (cookies : List String) (s : CState)
    (hp : env.parseURL item.url.str = none) :
    captureAssetFetch c env item cookies s = (some "http request error", s) := by
  unfold captureAssetFetch
  rw [hp]

/-- The fetch part of the Asset Capturer when the fetch fails: the temp file
is deleted and the error propagated. -/
theorem captureAssetFetch_err (c : Crawl) (env : Env) (item : Item)
    (cookies : List String) (s : CState) (reqURL : URLm) (respPath e : String)
    (s₁ : CState)
    (hp : env.parseURL item.url.str = some reqURL)
    (hx : executeGET c env item (assetRequest item reqURL cookies) s =
      (.err respPath e, s₁)) :
    captureAssetFetch c env item cookies s = (some e, deleteTempFile env respPath s₁) := by
  unfold captureAssetFetch
  rw [hp]
  dsimp only
  rw [hx]

/-- The fetch part of the Asset Capturer when the fetch succeeds: the temp
file is deleted (assets are never parsed), the success observation is
recorded, the body is closed, and nil is returned. -/
theorem captureAssetFetch_ok (c : Crawl) (env : Env) (item : Item)
    (cookies : List String) (s : CState) (reqURL : URLm) (resp : HttpResponse)
    (respPath : String) (s₁ : CState)
    (hp : env.parseURL item.url.str = some reqURL)
    (hx : executeGET c env item (assetRequest item reqURL cookies) s =
      (.ok resp respPath, s₁)) :
    captureAssetFetch c env item cookies s =
      (none, ((deleteTempFile env respPath s₁).log
        (.logSuccess resp.statusCode)).log .bodyClose) := by
  unfold captureAssetFetch
  rw [hp]
  dsimp only
  rw [hx]

/-- The fetch part of the Asset Capturer never touches the queue-depth
counter or the seen-set and emits only asset-capturer events. -/
theorem captureAssetFetch_state (c : Crawl) (env : Env) (item : Item)
    (cookies : List String) (s : CState) :
    (captureAssetFetch c env item cookies s).2.queueCount = s.queueCount ∧
    (captureAssetFetch c env item cookies s).2.seen = s.seen ∧
    ∃ t, (captureAssetFetch c env item cookies s).2.events = s.events ++ t ∧
      ∀ e ∈ t, e.isAssetScope = true := by
  cases hp : env.parseURL item.url.str with
  | none =>
    rw [captureAssetFetch_nourl c env item cookies s hp]
    exact ⟨rfl, rfl, [], by simp, by simp⟩
  | some reqURL =>
    cases hx : executeGET c env item (assetRequest item reqURL cookies) s with
    | mk gr s₁ =>
      obtain ⟨hq, hn, t, ht, hexec⟩ :=
        executeGET_state c env item (assetRequest item reqURL cookies) s
      rw [hx] at hq hn ht
      dsimp only at hq hn ht
      cases gr with
      | err respPath e =>
        rw [captureAssetFetch_err c env item cookies s reqURL respPath e s₁ hp hx]
        obtain ⟨_, hq₂, hn₂, t₂, ht₂, hdel⟩ := deleteTempFile_spec env respPath s₁
        dsimp only
        refine ⟨?_, ?_, t ++ t₂, ?_, ?_⟩
        · rw [hq₂, hq]
        · rw [hn₂, hn]
        · rw [ht₂, ht, List.append_assoc]
        · intro ev hev
          rcases List.mem_append.mp hev with h | h
          · exact isExec_isAssetScope ev (hexec.1 ev h)
          · exact isExec_isAssetScope ev (hdel ev h).1
      | ok resp respPath =>
        rw [captureAssetFetch_ok c env item cookies s reqURL resp respPath s₁ hp hx]
        obtain ⟨_, hq₂, hn₂, t₂, ht₂, hdel⟩ := deleteTempFile_spec env respPath s₁
        dsimp only
        refine ⟨?_, ?_, t ++ t₂ ++ [.logSuccess resp.statusCode, .bodyClose], ?_, ?_⟩
        · rw [CState.log_queueCount, CState.log_queueCount, hq₂, hq]
        · rw [CState.log_seen, CState.log_seen, hn₂, hn]
        · rw [CState.log_events, CState.log_events, ht₂, ht]
          simp
        · intro ev hev
          rcases List.mem_append.mp hev with h | h
          · rcases List.mem_append.mp h with h' | h'
            · exact isExec_isAssetScope ev (hexec.1 ev h')
            · exact isExec_isAssetScope ev (hdel ev h').1
          · rcases List.mem_cons.mp h with rfl | h'
            · rfl
            · rcases List.mem_singleton.mp h' with rfl
              rfl

/-- The Asset Capturer never touches the queue-depth counter and emits only
asset-capturer events. -/
theorem captureAsset_state (c : Crawl) (env : Env) (item : Item)
    (cookies : List String) (s : CState) :
    (captureAsset c env item cookies s).2.queueCount = s.queueCount ∧
    ∃ t, (captureAsset c env item cookies s).2.events = s.events ++ t ∧
      ∀ e ∈ t, e.isAssetScope = true := by
  unfold captureAsset
  by_cases hsc : c.seencheck = true
  · by_cases hf : s.seen.any (fun p => p.1 = toString item.hash) = true
    · rw [seencheckGate_seen c item s hsc hf]
      dsimp only
      exact ⟨rfl, [.seenCheck (toString item.hash) true], by simp, by simp [Event.isAssetScope]⟩
    · rw [seencheckGate_new c item s hsc (Bool.eq_false_iff.mpr hf)]
      dsimp only
      obtain ⟨hq, _, t, ht, hak⟩ := captureAssetFetch_state c env item cookies
        { (s.log (.seenCheck (toString item.hash) false)).log
            (.markSeen (toString item.hash)) with
          seen := s.seen ++ [(toString item.hash, item.itemType)] }
      refine ⟨by rw [hq]; simp, .seenCheck (toString item.hash) false ::
        .markSeen (toString item.hash) :: t, ?_, ?_⟩
      · rw [ht]
        simp
      · intro ev hev
        rcases List.mem_cons.mp hev with rfl | h
        · rfl
        · rcases List.mem_cons.mp h with rfl | h'
          · rfl
          · exact hak ev h'
  · rw [seencheckGate_off c item s (Bool.eq_false_iff.mpr hsc)]
    dsimp only
    obtain ⟨hq, _, t, ht, hak⟩ := captureAssetFetch_state c env item cookies s
    exact ⟨hq, t, ht, hak⟩

/-- One skipped iteration of the asset loop (capture.go:234-236): the asset
URL equals the page URL, so after the queue decrement the loop moves on —
the Asset Capturer is not invoked. -/
theorem assetLoop_skip (c : Crawl) (env : Env) (item : Item)
    (cookies : List String) (a : URLm) (rest : List URLm) (s : CState)
    (h : item.url.str = a.str) :
    assetLoop c env item cookies s (a :: rest) =
      assetLoop c env item cookies
        { s.log (.queueIncr (-1)) with queueCount := s.queueCount - 1 } rest := by
  simp only [assetLoop]
  rw [if_pos h]

/-- One failing iteration of the asset loop (capture.go:240-252): the error
is logged with crawl statistics and the loop continues. -/
theorem assetLoop_fail (c : Crawl) (env : Env) (item : Item)
    (cookies : List String) (a : URLm) (rest : List URLm) (s : CState)
    (e : String) (s₁ : CState)
    (h : ¬item.url.str = a.str)
    (hca : captureAsset c env (NewItem env a item "asset" item.hop) cookies
      ({ s.log (.queueIncr (-1)) with queueCount := s.queueCount - 1 }.log
        (.captureAssetCall a.str)) = (some e, s₁)) :
    assetLoop c env item cookies s (a :: rest) =
      assetLoop c env item cookies (s₁.log (.logAssetCaptureError a.str)) rest := by
  simp only [assetLoop]
  rw [if_neg h, hca]

/-- One successful iteration of the asset loop. -/
theorem assetLoop_ok (c : Crawl) (env : Env) (item : Item)
    (cookies : List String) (a : URLm) (rest : List URLm) (s : CState)
    (s₁ : CState)
    (h : ¬item.url.str = a.str)
    (hca : captureAsset c env (NewItem env a item "asset" item.hop) cookies
      ({ s.log (.queueIncr (-1)) with queueCount := s.queueCount - 1 }.log
        (.captureAssetCall a.str)) = (none, s₁)) :
    assetLoop c env item cookies s (a :: rest) =
      assetLoop c env item cookies s₁ rest := by
  simp only [assetLoop]
  rw [if_neg h, hca]

/-- The asset loop decrements the queue-depth counter exactly once per asset
— skipped, failed or captured — and emits only asset-loop events; its net
effect on the counter is `- assets.length`. -/
theorem assetLoop_state (c : Crawl) (env : Env) (item : Item)
    (cookies : List String) (assets : List URLm) :
    ∀ s : CState,
    (assetLoop c env item cookies s assets).queueCount = s.queueCount - assets.length ∧
    ∃ t, (assetLoop c env item cookies s assets).events = s.events ++ t ∧
      (∀ e ∈ t, e.isLoopScope = true) ∧
      t.count (Event.queueIncr (-1)) = assets.length := by
  induction assets with
  | nil =>
    intro s
    exact ⟨by simp [assetLoop], [], by simp [assetLoop], by simp, by simp⟩
  | cons a rest ih =>
    intro s
    by_cases hskip : item.url.str = a.str
    · rw [assetLoop_skip c env item cookies a rest s hskip]
      obtain ⟨hq, t, ht, hscope, hcnt⟩ :=
        ih { s.log (.queueIncr (-1)) with queueCount := s.queueCount - 1 }
      refine ⟨?_, .queueIncr (-1) :: t, ?_, ?_, ?_⟩
      · rw [hq]
        dsimp only
        simp only [List.length_cons]
        push_cast
        omega
      · rw [ht]
        simp
      · intro ev hev
        rcases List.mem_cons.mp hev with rfl | h
        · simp [Event.isLoopScope]
        · exact hscope ev h
      · rw [List.count_cons]
        simp [hcnt]
    · obtain ⟨hcq, tc, htc, hcscope⟩ :=
        captureAsset_state c env (NewItem env a item "asset" item.hop) cookies
          ({ s.log (.queueIncr (-1)) with queueCount := s.queueCount - 1 }.log
            (.captureAssetCall a.str))
      cases hca : captureAsset c env (NewItem env a item "asset" item.hop) cookies
          ({ s.log (.queueIncr (-1)) with queueCount := s.queueCount - 1 }.log
            (.captureAssetCall a.str)) with
      | mk err? s₁ =>
        rw [hca] at hcq htc
        dsimp only at hcq htc
        rw [CState.log_queueCount] at hcq
        rw [CState.log_events] at htc
        cases err? with
        | some e =>
          rw [assetLoop_fail c env item cookies a rest s e s₁ hskip hca]
          obtain ⟨hq, t, ht, hscope, hcnt⟩ := ih (s₁.log (.logAssetCaptureError a.str))
          refine ⟨?_, .queueIncr (-1) :: .captureAssetCall a.str ::
            (tc ++ [.logAssetCaptureError a.str] ++ t), ?_, ?_, ?_⟩
          · rw [hq, CState.log_queueCount, hcq]
            dsimp only
            simp only [List.length_cons]
            push_cast
            omega
          · rw [ht, CState.log_events, htc]
            dsimp only
            simp
          · intro ev hev
            rcases List.mem_cons.mp hev with rfl | h
            · simp [Event.isLoopScope]
            · rcases List.mem_cons.mp h with rfl | h'
              · rfl
              · rcases List.mem_append.mp h' with h'' | h''
                · rcases List.mem_append.mp h'' with h₃ | h₃
                  · exact isAssetScope_isLoopScope ev (hcscope ev h₃)
                  · rcases List.mem_singleton.mp h₃ with rfl
                    rfl
                · exact hscope ev h''
          · rw [List.count_cons, List.count_cons]
            have hc0 : tc.count (Event.queueIncr (-1)) = 0 := by
              rw [List.count_eq_zero]
              intro hmem
              have := hcscope _ hmem
              simp [Event.isAssetScope] at this
            simp [List.count_append, hc0, hcnt]
        | none =>
          rw [assetLoop_ok c env item cookies a rest s s₁ hskip hca]
          obtain ⟨hq, t, ht, hscope, hcnt⟩ := ih s₁
          refine ⟨?_, .queueIncr (-1) :: .captureAssetCall a.str :: (tc ++ t), ?_, ?_, ?_⟩
          · rw [hq, hcq]
            dsimp only
            simp only [List.length_cons]
            push_cast
            omega
          · rw [ht, htc]
            dsimp only
            simp
          · intro ev hev
            rcases List.mem_cons.mp hev with rfl | h
            · simp [Event.isLoopScope]
            · rcases List.mem_cons.mp h with rfl | h'
              · rfl
              · rcases List.mem_append.mp h' with h'' | h''
                · exact isAssetScope_isLoopScope ev (hcscope ev h'')
                · exact hscope ev h''
          · rw [List.count_cons, List.count_cons]
            have hc0 : tc.count (Event.queueIncr (-1)) = 0 := by
              rw [List.count_eq_zero]
              intro hmem
              have := hcscope _ hmem
              simp [Event.isAssetScope] at this
            simp [List.count_append, hc0, hcnt]

/-- `Capture` when the item URL does not parse (capture.go:130-135). -/
theorem Capture_nourl (c : Crawl) (env : Env) (item : Item) (s : CState)
    (hp : env.parseURL item.url.str = none) :
    Capture c env item s = s.log (.logWarn item.url.str) := by
  unfold Capture
  rw [hp]

/-- `Capture` when the fetch fails (capture.go:142-148): the warning is
logged and the temp file deleted. -/
theorem Capture_fetch_err (c : Crawl) (env : Env) (item : Item) (s : CState)
    (reqURL : URLm) (respPath e : String) (s₁ : CState)
    (hp : env.parseURL item.url.str = some reqURL)
    (hx : executeGET c env item (captureRequest item reqURL) s = (.err respPath e, s₁)) :
    Capture c env item s = deleteTempFile env respPath (s₁.log (.logWarn item.url.str)) := by
  unfold Capture
  rw [hp]
  dsimp only
  rw [hx]

/-- `Capture` when the response is not `text/*` (capture.go:153-158): the
success observation is recorded, the temp file is deleted, the body is
closed and nothing else happens. -/
theorem Capture_nontext (c : Crawl) (env : Env) (item : Item) (s : CState)
    (reqURL : URLm) (resp : HttpResponse) (respPath : String) (s₁ : CState)
    (hp : env.parseURL item.url.str = some reqURL)
    (hx : executeGET c env item (captureRequest item reqURL) s = (.ok resp respPath, s₁))
    (hct : strContains (headerGet resp.headers "Content-Type") "text/" = false) :
    Capture c env item s =
      (deleteTempFile env respPath (s₁.log (.logSuccess resp.statusCode))).log .bodyClose := by
  unfold Capture
  rw [hp]
  dsimp only
  rw [hx]
  dsimp only
  rw [if_pos hct]

/-- `Capture` when the response is `text/*` and the base URL parses
(capture.go:160-168): processing continues with the document phases. -/
theorem Capture_text (c : Crawl) (env : Env) (item : Item) (s : CState)
    (reqURL : URLm) (resp : HttpResponse) (respPath : String) (s₁ : CState)
    (base : URLm)
    (hp : env.parseURL item.url.str = some reqURL)
    (hx : executeGET c env item (captureRequest item reqURL) s = (.ok resp respPath, s₁))
    (hct : strContains (headerGet resp.headers "Content-Type") "text/" = true)
    (hbase : env.parseURL resp.requestURL.str = some base) :
    Capture c env item s =
      capturePostFetch c env item resp respPath base
        (s₁.log (.logSuccess resp.statusCode)) := by
  unfold Capture
  rw [hp]
  dsimp only
  rw [hx]
  dsimp only
  rw [if_neg (by simp [hct]), hbase]

/-- `capturePostFetch` when the temp file opens and parses (capture.go:172-196):
the temp file is deleted and the document phases run. -/
theorem capturePostFetch_file_ok (c : Crawl) (env : Env) (item : Item)
    (resp : HttpResponse) (respPath : String) (base : URLm) (s : CState)
    (contents : String) (doc : Doc)
    (hp : respPath ≠ "")
    (ho : env.openFile respPath = .ok contents)
    (hd : env.parseDocReader contents = .ok doc) :
    capturePostFetch c env item resp respPath base s =
      postDocPhase c env item resp base doc (docFileOkState env respPath s) := by
  unfold capturePostFetch docFileOkState
  rw [if_pos hp, ho]
  dsimp only
  rw [hd]

/-- `postDocPhase` when the hop budget is exhausted (capture.go:209): no
outlink extraction, straight to the asset phase. -/
theorem postDocPhase_nohop (c : Crawl) (env : Env) (item : Item)
    (resp : HttpResponse) (base : URLm) (doc : Doc) (s : CState)
    (h : ¬item.hop < c.maxHops) :
    postDocPhase c env item resp base doc s =
      assetPhase c env item resp base doc s := by
  unfold postDocPhase
  rw [if_neg h]

/-- `postDocPhase` when the hop budget allows and extraction succeeds
(capture.go:210-217): the outlinks are handed off asynchronously and the
asset phase runs. -/
theorem postDocPhase_outlinks (c : Crawl) (env : Env) (item : Item)
    (resp : HttpResponse) (base : URLm) (doc : Doc) (s : CState)
    (outlinks : List URLm)
    (h : item.hop < c.maxHops)
    (hok : env.extractOutlinks base doc = .ok outlinks) :
    postDocPhase c env item resp base doc s =
      assetPhase c env item resp base doc
        ((s.log .extractOutlinksCall).log (.queueOutlinksAsync outlinks.length)) := by
  unfold postDocPhase
  rw [if_pos h]
  dsimp only
  rw [hok]

/-- `postDocPhase` when the hop budget allows but extraction fails
(capture.go:211-216): the error is logged and `Capture` returns — the asset
phase never runs. -/
theorem postDocPhase_outlink_fail (c : Crawl) (env : Env) (item : Item)
    (resp : HttpResponse) (base : URLm) (doc : Doc) (s : CState) (e : String)
    (h : item.hop < c.maxHops)
    (hfail : env.extractOutlinks base doc = .error e) :
    postDocPhase c env item resp base doc s =
      ((s.log .extractOutlinksCall).log
        (.logOutlinkExtractError item.url.str)).log .bodyClose := by
  unfold postDocPhase
  rw [if_pos h]
  dsimp only
  rw [hfail]

/-- `assetPhase` when asset extraction succeeds (capture.go:229-253). -/
theorem assetPhase_ok (c : Crawl) (env : Env) (item : Item)
    (resp : HttpResponse) (base : URLm) (doc : Doc) (s : CState)
    (assets : List URLm)
    (hassets : env.extractAssets base doc = .ok assets) :
    assetPhase c env item resp base doc s =
      (assetLoop c env item resp.cookies
        { (s.log .extractAssetsCall).log (.queueIncr assets.length) with
          queueCount := s.queueCount + assets.length } assets).log .bodyClose := by
  unfold assetPhase
  dsimp only
  rw [hassets]
  dsimp only
  simp

/-- `assetPhase` when asset extraction fails (capture.go:222-227). -/
theorem assetPhase_fail (c : Crawl) (env : Env) (item : Item)
    (resp : HttpResponse) (base : URLm) (doc : Doc) (s : CState) (e : String)
    (hfail : env.extractAssets base doc = .error e) :
    assetPhase c env item resp base doc s =
      ((s.log .extractAssetsCall).log
        (.logAssetExtractError item.url.str)).log .bodyClose := by
  unfold assetPhase
  dsimp only
  rw [hfail]

/-- The asset phase leaves the queue-depth counter where it found it and
emits no outlink events. -/
theorem assetPhase_state (c : Crawl) (env : Env) (item : Item)
    (resp : HttpResponse) (base : URLm) (doc : Doc) (s : CState) :
    (assetPhase c env item resp base doc s).queueCount = s.queueCount ∧
    ∃ t, (assetPhase c env item resp base doc s).events = s.events ++ t ∧
      ∀ e ∈ t, e.isOutlink = false := by
  cases hassets : env.extractAssets base doc with
  | error e =>
    rw [assetPhase_fail c env item resp base doc s e hassets]
    exact ⟨rfl, [.extractAssetsCall, .logAssetExtractError item.url.str, .bodyClose],
      by simp, by simp [Event.isOutlink]⟩
  | ok assets =>
    rw [assetPhase_ok c env item resp base doc s assets hassets]
    obtain ⟨hq, t, ht, hscope, _⟩ :=
      assetLoop_state c env item resp.cookies assets
        { (s.log .extractAssetsCall).log (.queueIncr assets.length) with
          queueCount := s.queueCount + assets.length }
    refine ⟨?_, .extractAssetsCall :: .queueIncr assets.length :: (t ++ [.bodyClose]), ?_, ?_⟩
    · rw [CState.log_queueCount, hq]
      dsimp only
      omega
    · rw [CState.log_events, ht]
      dsimp only
      simp
    · intro ev hev
      rcases List.mem_cons.mp hev with rfl | h
      · rfl
      · rcases List.mem_cons.mp h with rfl | h'
        · rfl
        · rcases List.mem_append.mp h' with h'' | h''
          · exact isLoopScope_not_outlink ev (hscope ev h'')
          · rcases List.mem_singleton.mp h'' with rfl
            rfl

/-! ## The claims -/

/-- C1: the claim says the new GET request issued for the next redirect hop
carries the configured `User-Agent` and a `Referer` set to the parent item's
URL.  The code (capture.go:66-67) sets those headers on `req` — the request
of the hop just completed — and recurses with the freshly built `newReq`,
which carries no headers at all: on a concrete 301 from `urlA` to `urlB`,
the second request issued is `reqB` with an empty header list, although the
configured User-Agent is `"TestUA"`. -/
theorem claim_C1_redirect_header_bug :
    executeGET baseCrawl baseEnv itemA reqA s0 =
      (.ok respOk "", (s0.log (.httpRequest reqA false)).log (.httpRequest reqB false)) ∧
    headerGet reqB.headers "User-Agent" = "" ∧
    headerGet reqB.headers "Referer" = "" ∧
    baseCrawl.userAgent = "TestUA" := by
  have h1 : executeGET baseCrawl baseEnv itemA reqA s0 =
      executeGET baseCrawl baseEnv
        ((NewItem baseEnv urlB itemA itemA.itemType itemA.hop).withRedirect
          (itemA.redirect + 1))
        ⟨"GET", urlB, [], []⟩
        (deleteTempFile baseEnv "" (s0.log (.httpRequest reqA false))) :=
    executeGET_redirect_follow baseCrawl baseEnv itemA reqA s0 respRedirect ""
      (s0.log (.httpRequest reqA false)) urlB urlB (by rfl) (by rfl) (by rfl)
      (by decide) (by rfl) (by rfl)
  have h3 : executeGET baseCrawl baseEnv
      ((NewItem baseEnv urlB itemA itemA.itemType itemA.hop).withRedirect
        (itemA.redirect + 1))
      ⟨"GET", urlB, [], []⟩
      (deleteTempFile baseEnv "" (s0.log (.httpRequest reqA false))) =
      (.ok respOk "", (s0.log (.httpRequest reqA false)).log (.httpRequest reqB false)) :=
    executeGET_no_redirect baseCrawl baseEnv
      ((NewItem baseEnv urlB itemA itemA.itemType itemA.hop).withRedirect
        (itemA.redirect + 1))
      ⟨"GET", urlB, [], []⟩
      (deleteTempFile baseEnv "" (s0.log (.httpRequest reqA false)))
      respOk ""
      ((s0.log (.httpRequest reqA false)).log (.httpRequest reqB false))
      (by rfl) (by rfl) (by rfl)
  exact ⟨h1.trans h3, rfl, rfl, rfl⟩

/-- C2: redirect recursion terminates and respects the budget.  (1) On a
redirect whose `Location` equals the current URL or whose item has used up
the redirect budget, the current response and archive path are returned
unchanged with a nil error.  (2) The executor recurses only when the
redirect count is strictly below `MaxRedirect`, and the recursive call
carries the count incremented by one.  (3) Globally, a call issues at most
remaining-budget-plus-one HTTP requests. -/
theorem claim_C2_redirect_budget (c : Crawl) (env : Env) (parentItem : Item)
    (req : Request) (s : CState) (resp : HttpResponse) (p : String) (s' : CState)
    (hdo : doRequest c env req = .ok resp)
    (ha : archiveStep c env resp (s.log (.httpRequest req (reqProxied c req))) =
      ((p, none), s'))
    (hr : isRedirection resp.statusCode = true) :
    ((headerGet resp.headers "location" = req.url.str ∨
        parentItem.redirect ≥ c.maxRedirect) →
      executeGET c env parentItem req s = (.ok resp p, s')) ∧
    (∀ URL reqURL : URLm,
      ¬(headerGet resp.headers "location" = req.url.str ∨
        parentItem.redirect ≥ c.maxRedirect) →
      env.parseURL (headerGet resp.headers "location") = some URL →
      env.parseURL URL.str = some reqURL →
      parentItem.redirect < c.maxRedirect ∧
      executeGET c env parentItem req s =
        executeGET c env
          ((NewItem env URL parentItem parentItem.itemType parentItem.hop).withRedirect
            (parentItem.redirect + 1)) ⟨"GET", reqURL, [], []⟩
          (deleteTempFile env p s')) ∧
    (∃ t, (executeGET c env parentItem req s).2.events = s.events ++ t ∧
      httpCount t ≤ (c.maxRedirect - parentItem.redirect).toNat + 1) := by
  refine ⟨?_, ?_, ?_⟩
  · intro hstop
    exact executeGET_redirect_stop c env parentItem req s resp p s' hdo ha hr hstop
  · intro URL reqURL hgo hu hu2
    refine ⟨?_, executeGET_redirect_follow c env parentItem req s resp p s' URL reqURL
      hdo ha hr hgo hu hu2⟩
    push_neg at hgo
    exact hgo.2
  · obtain ⟨_, _, t, ht, _, hb⟩ := executeGET_state c env parentItem req s
    exact ⟨t, ht, hb⟩

/-- C2, witnessed: with the budget exhausted (redirect count 5 of max 5) the
301 response is returned as the final result with a nil error. -/
theorem claim_C2_witness :
    executeGET baseCrawl baseEnv itemMaxRedirect reqA s0 =
      (.ok respRedirect "", s0.log (.httpRequest reqA false)) :=
  (claim_C2_redirect_budget baseCrawl baseEnv itemMaxRedirect reqA s0 respRedirect ""
    (s0.log (.httpRequest reqA false)) (by rfl) (by rfl) (by rfl)).1
    (Or.inr (by decide))

/-- C3: on every followed redirect hop, the superseded hop's temp file is
deleted before the recursion for the next hop begins — the recursive call
starts from a state in which the removal is already recorded, every event of
the next hop comes after it, and the final result (hence the returned
archive path) is exactly the recursive call's result. -/
theorem claim_C3_superseded_file_deleted (c : Crawl) (env : Env)
    (parentItem : Item) (req : Request) (s : CState) (resp : HttpResponse)
    (p : String) (s' : CState) (URL reqURL : URLm)
    (hdo : doRequest c env req = .ok resp)
    (ha : archiveStep c env resp (s.log (.httpRequest req (reqProxied c req))) =
      ((p, none), s'))
    (hr : isRedirection resp.statusCode = true)
    (hgo : ¬(headerGet resp.headers "location" = req.url.str ∨
      parentItem.redirect ≥ c.maxRedirect))
    (hu : env.parseURL (headerGet resp.headers "location") = some URL)
    (hu2 : env.parseURL URL.str = some reqURL) :
    executeGET c env parentItem req s =
      executeGET c env
        ((NewItem env URL parentItem parentItem.itemType parentItem.hop).withRedirect
          (parentItem.redirect + 1)) ⟨"GET", reqURL, [], []⟩
        (deleteTempFile env p s') ∧
    (p ≠ "" → ∃ t, (deleteTempFile env p s').events =
      s'.events ++ .removeAttempt p :: t) ∧
    (∃ t, (executeGET c env
        ((NewItem env URL parentItem parentItem.itemType parentItem.hop).withRedirect
          (parentItem.redirect + 1)) ⟨"GET", reqURL, [], []⟩
        (deleteTempFile env p s')).2.events =
      (deleteTempFile env p s').events ++ t) := by
  refine ⟨executeGET_redirect_follow c env parentItem req s resp p s' URL reqURL
    hdo ha hr hgo hu hu2, ?_, ?_⟩
  · intro hne
    unfold deleteTempFile
    rw [if_pos hne]
    cases env.removeFile p with
    | some e => exact ⟨[.logDeleteError p], by simp⟩
    | none => exact ⟨[], by simp⟩
  · obtain ⟨_, _, t, ht, _, _⟩ := executeGET_state c env
      ((NewItem env URL parentItem parentItem.itemType parentItem.hop).withRedirect
        (parentItem.redirect + 1)) ⟨"GET", reqURL, [], []⟩ (deleteTempFile env p s')
    exact ⟨t, ht⟩

/-- C3, witnessed: with archival on, the first hop's file `"tmp1"` is deleted
before the second hop begins. -/
theorem claim_C3_witness :
    executeGET warcCrawl warcEnv itemA reqA s0 =
      executeGET warcCrawl warcEnv
        ((NewItem warcEnv urlB itemA "seed" 0).withRedirect 1)
        ⟨"GET", urlB, [], []⟩ (deleteTempFile warcEnv "tmp1" sHop1) ∧
    ("tmp1" ≠ "" → ∃ t, (deleteTempFile warcEnv "tmp1" sHop1).events =
      sHop1.events ++ .removeAttempt "tmp1" :: t) ∧
    (∃ t, (executeGET warcCrawl warcEnv
        ((NewItem warcEnv urlB itemA "seed" 0).withRedirect 1)
        ⟨"GET", urlB, [], []⟩ (deleteTempFile warcEnv "tmp1" sHop1)).2.events =
      (deleteTempFile warcEnv "tmp1" sHop1).events ++ t) :=
  claim_C3_superseded_file_deleted warcCrawl warcEnv itemA reqA s0 respRedirect
    "tmp1" sHop1 urlB urlB (by rfl) (by rfl) (by rfl) (by decide) (by rfl) (by rfl)

/-- C4: the content-type gate.  When the fetched response's `Content-Type`
does not contain `"text/"`, `Capture` deletes the temp file, closes the body
and stops: the whole run emits no document parse, no link extraction, no
outlink or asset scheduling, and no extraction-error log. -/
theorem claim_C4_content_type_gate (c : Crawl) (env : Env) (item : Item)
    (s : CState) (reqURL : URLm) (resp : HttpResponse) (respPath : String)
    (s₁ : CState)
    (hp : env.parseURL item.url.str = some reqURL)
    (hx : executeGET c env item (captureRequest item reqURL) s = (.ok resp respPath, s₁))
    (hct : strContains (headerGet resp.headers "Content-Type") "text/" = false) :
    Capture c env item s =
      (deleteTempFile env respPath (s₁.log (.logSuccess resp.statusCode))).log .bodyClose ∧
    (respPath ≠ "" → .removeAttempt respPath ∈ (Capture c env item s).events) ∧
    ∃ t, (Capture c env item s).events = s.events ++ t ∧
      ∀ e ∈ t, e.isScrape = false ∧ e.isExtractionErrorLog = false := by
  have heq := Capture_nontext c env item s reqURL resp respPath s₁ hp hx hct
  obtain ⟨_, _, t, ht, hsh, _⟩ := executeGET_state c env item (captureRequest item reqURL) s
  rw [hx] at ht
  dsimp only at ht
  obtain ⟨_, _, _, t₂, ht₂, hdel⟩ :=
    deleteTempFile_spec env respPath (s₁.log (.logSuccess resp.statusCode))
  refine ⟨heq, ?_, t ++ (.logSuccess resp.statusCode :: t₂ ++ [.bodyClose]), ?_, ?_⟩
  · intro hne
    rw [heq]
    simp only [CState.log_events]
    exact List.mem_append.mpr (Or.inl
      (deleteTempFile_attempt env respPath (s₁.log (.logSuccess resp.statusCode)) hne))
  · rw [heq]
    simp only [CState.log_events, ht₂, ht]
    simp
  · intro ev hev
    rcases List.mem_append.mp hev with h | h
    · exact ⟨(isExec_not_scrape ev (hsh ev h)).1, (isExec_not_scrape ev (hsh ev h)).2.1⟩
    · rcases List.mem_cons.mp h with rfl | h'
      · exact ⟨rfl, rfl⟩
      · rcases List.mem_append.mp h' with h'' | h''
        · exact ⟨(isExec_not_scrape ev ((hdel ev h'').1)).1,
            (isExec_not_scrape ev ((hdel ev h'').1)).2.1⟩
        · rcases List.mem_singleton.mp h'' with rfl
          exact ⟨rfl, rfl⟩

/-- C4, witnessed: a page fetched as `200 image/png` is archived, observed as
a success, and stops at the gate. -/
theorem claim_C4_witness :
    Capture baseCrawl pngEnv itemA s0 =
      (deleteTempFile pngEnv "" ((s0.log (.httpRequest reqA false)).log
        (.logSuccess 200))).log .bodyClose ∧
    ("" ≠ "" → .removeAttempt "" ∈ (Capture baseCrawl pngEnv itemA s0).events) ∧
    ∃ t, (Capture baseCrawl pngEnv itemA s0).events = s0.events ++ t ∧
      ∀ e ∈ t, e.isScrape = false ∧ e.isExtractionErrorLog = false := by
  have hx : executeGET baseCrawl pngEnv itemA (captureRequest itemA urlA) s0 =
      (.ok respPng "", s0.log (.httpRequest reqA false)) :=
    executeGET_no_redirect baseCrawl pngEnv itemA (captureRequest itemA urlA) s0
      respPng "" (s0.log (.httpRequest reqA false)) (by rfl) (by rfl) (by rfl)
  exact claim_C4_content_type_gate baseCrawl pngEnv itemA s0 urlA respPng ""
    (s0.log (.httpRequest reqA false)) (by rfl) hx (by rfl)

/-- C5: the deduplication gate of the Asset Capturer.  With Seencheck on:
(a) a hash already in the seen-set makes `captureAsset` return nil at once,
the only new event being the seen-set read — no request is issued; (b) a
fresh hash is appended to the seen-set, and the read and mark events precede
everything else the capture does. -/
theorem claim_C5_dedup_gate (c : Crawl) (env : Env) (item : Item)
    (cookies : List String) (s : CState) (hsc : c.seencheck = true) :
    (s.seen.any (fun p => p.1 = toString item.hash) = true →
      captureAsset c env item cookies s =
        (none, s.log (.seenCheck (toString item.hash) true))) ∧
    (s.seen.any (fun p => p.1 = toString item.hash) = false →
      (captureAsset c env item cookies s).2.seen =
        s.seen ++ [(toString item.hash, item.itemType)] ∧
      ∃ t, (captureAsset c env item cookies s).2.events =
        s.events ++ .seenCheck (toString item.hash) false ::
          .markSeen (toString item.hash) :: t) := by
  constructor
  · intro hf
    unfold captureAsset
    rw [seencheckGate_seen c item s hsc hf]
  · intro hf
    unfold captureAsset
    rw [seencheckGate_new c item s hsc hf]
    dsimp only
    obtain ⟨_, hn, t, ht, _⟩ := captureAssetFetch_state c env item cookies
      { (s.log (.seenCheck (toString item.hash) false)).log
          (.markSeen (toString item.hash)) with
        seen := s.seen ++ [(toString item.hash, item.itemType)] }
    constructor
    · rw [hn]
    · refine ⟨t, ?_⟩
      rw [ht]
      dsimp only
      simp

/-- C5, witnessed: hash `"7"` already seen → nil with only the read event;
hash `"7"` fresh → it is appended to the seen-set and the mark precedes the
fetch events. -/
theorem claim_C5_witness :
    (captureAsset scCrawl baseEnv itemAsset ["sid=1"] seenS =
      (none, seenS.log (.seenCheck "7" true))) ∧
    ((captureAsset scCrawl baseEnv itemAsset ["sid=1"] s0).2.seen =
      [("7", "asset")] ∧
    ∃ t, (captureAsset scCrawl baseEnv itemAsset ["sid=1"] s0).2.events =
      .seenCheck "7" false :: .markSeen "7" :: t) := by
  refine ⟨?_, ?_⟩
  · exact (claim_C5_dedup_gate scCrawl baseEnv itemAsset ["sid=1"] seenS rfl).1 (by rfl)
  · exact (claim_C5_dedup_gate scCrawl baseEnv itemAsset ["sid=1"] s0 rfl).2 (by rfl)

/-- C6: archival failure handling in `executeGET`.  With WARC on and a
successful fetch: a failing archive write closes the body and propagates the
error, leaving the crawled counter untouched; a successful write increments
the crawled counter by one. -/
theorem claim_C6_archive_error (c : Crawl) (env : Env) (parentItem : Item)
    (req : Request) (s : CState) (resp : HttpResponse)
    (hw : c.warc = true)
    (hdo : doRequest c env req = .ok resp) :
    (∀ p e, env.writeWARC resp = (p, some e) →
      executeGET c env parentItem req s =
        (.err p e, (s.log (.httpRequest req (reqProxied c req))).log .bodyClose) ∧
      (executeGET c env parentItem req s).2.crawled = s.crawled) ∧
    (∀ p, env.writeWARC resp = (p, none) →
      (archiveStep c env resp (s.log (.httpRequest req (reqProxied c req)))).2.crawled =
        s.crawled + 1) := by
  constructor
  · intro p e hfail
    have heq := executeGET_archive_fail c env parentItem req s resp p e
      ((s.log (.httpRequest req (reqProxied c req))).log .bodyClose) hdo
      (archiveStep_warc_fail c env resp (s.log (.httpRequest req (reqProxied c req)))
        p e hw hfail)
    exact ⟨heq, by rw [heq]; rfl⟩
  · intro p hok
    rw [archiveStep_warc_ok c env resp (s.log (.httpRequest req (reqProxied c req)))
      p hw hok]
    rfl

/-- C6, witnessed: a failing WARC write (`"disk full"`) is propagated with
the body closed and the crawled counter still at 0. -/
theorem claim_C6_witness :
    executeGET warcCrawl failWarcEnv itemA reqA s0 =
      (.err "tmpf" "disk full", (s0.log (.httpRequest reqA false)).log .bodyClose) ∧
    (executeGET warcCrawl failWarcEnv itemA reqA s0).2.crawled = 0 :=
  (claim_C6_archive_error warcCrawl failWarcEnv itemA reqA s0 respRedirect
    (by rfl) (by rfl)).1 "tmpf" "disk full" (by rfl)

/-- C7: the hop-count gate for outlink expansion.  With the document
acquired from the temp file: if the item's hop count is strictly below
`MaxHops`, the outlinks are extracted and handed off asynchronously (the
`go queueOutlinks` event) while the orchestrator continues into the asset
phase without waiting; if the hop count has reached `MaxHops`, the whole
remaining run emits no outlink extraction and no outlink hand-off. -/
theorem claim_C7_hop_gate (c : Crawl) (env : Env) (item : Item)
    (resp : HttpResponse) (respPath : String) (base : URLm) (s : CState)
    (contents : String) (doc : Doc)
    (hp : respPath ≠ "")
    (ho : env.openFile respPath = .ok contents)
    (hd : env.parseDocReader contents = .ok doc) :
    (∀ outlinks, item.hop < c.maxHops →
      env.extractOutlinks base doc = .ok outlinks →
      capturePostFetch c env item resp respPath base s =
        assetPhase c env item resp base doc
          (((docFileOkState env respPath s).log .extractOutlinksCall).log
            (.queueOutlinksAsync outlinks.length))) ∧
    (¬item.hop < c.maxHops →
      ∃ t, (capturePostFetch c env item resp respPath base s).events = s.events ++ t ∧
        ∀ e ∈ t, e.isOutlink = false) := by
  have hdoc := capturePostFetch_file_ok c env item resp respPath base s contents doc hp ho hd
  constructor
  · intro outlinks hhop hok
    rw [hdoc, postDocPhase_outlinks c env item resp base doc
      (docFileOkState env respPath s) outlinks hhop hok]
  · intro hhop
    rw [hdoc, postDocPhase_nohop c env item resp base doc
      (docFileOkState env respPath s) hhop]
    obtain ⟨_, t, ht, hout⟩ :=
      assetPhase_state c env item resp base doc (docFileOkState env respPath s)
    obtain ⟨_, _, _, t₂, ht₂, hdel⟩ := deleteTempFile_spec env respPath (s.log (.parseDoc true))
    refine ⟨(.parseDoc true :: t₂) ++ t, ?_, ?_⟩
    · rw [ht]
      unfold docFileOkState
      rw [ht₂]
      simp
    · intro ev hev
      rcases List.mem_append.mp hev with h | h
      · rcases List.mem_cons.mp h with rfl | h'
        · rfl
        · exact (isExec_not_scrape ev ((hdel ev h').1)).2.2
      · exact hout ev h

/-- C7, witnessed: at hop 0 of max 3 the outlinks are extracted and handed
off; at hop 3 of max 3 no outlink event occurs anywhere in the run. -/
theorem claim_C7_witness :
    (capturePostFetch baseCrawl baseEnv itemA respOk "tmp1" urlB s0 =
      assetPhase baseCrawl baseEnv itemA respOk urlB ⟨"doc"⟩
        (((docFileOkState baseEnv "tmp1" s0).log .extractOutlinksCall).log
          (.queueOutlinksAsync 0))) ∧
    (∃ t, (capturePostFetch baseCrawl baseEnv itemHop3 respOk "tmp1" urlB s0).events =
      s0.events ++ t ∧ ∀ e ∈ t, e.isOutlink = false) := by
  constructor
  · exact (claim_C7_hop_gate baseCrawl baseEnv itemA respOk "tmp1" urlB s0
      "file-contents" ⟨"doc"⟩ (by decide) (by rfl) (by rfl)).1 [] (by decide) (by rfl)
  · exact (claim_C7_hop_gate baseCrawl baseEnv itemHop3 respOk "tmp1" urlB s0
      "file-contents" ⟨"doc"⟩ (by decide) (by rfl) (by rfl)).2 (by decide)

/-- C9: a failed outlink extraction within the hop budget is logged and ends
the page's processing: the asset phase never runs — no asset extraction, no
asset capture call, unlike per-asset errors which are isolated. -/
theorem claim_C9_outlink_error_aborts (c : Crawl) (env : Env) (item : Item)
    (resp : HttpResponse) (respPath : String) (base : URLm) (s : CState)
    (contents : String) (doc : Doc) (e : String)
    (hp : respPath ≠ "")
    (ho : env.openFile respPath = .ok contents)
    (hd : env.parseDocReader contents = .ok doc)
    (hhop : item.hop < c.maxHops)
    (hfail : env.extractOutlinks base doc = .error e) :
    capturePostFetch c env item resp respPath base s =
      (((docFileOkState env respPath s).log .extractOutlinksCall).log
        (.logOutlinkExtractError item.url.str)).log .bodyClose ∧
    ∃ t, (capturePostFetch c env item resp respPath base s).events = s.events ++ t ∧
      .logOutlinkExtractError item.url.str ∈ t ∧
      ∀ ev ∈ t, ev ≠ .extractAssetsCall ∧ ∀ u, ev ≠ .captureAssetCall u := by
  have heq := (capturePostFetch_file_ok c env item resp respPath base s contents doc
    hp ho hd).trans (postDocPhase_outlink_fail c env item resp base doc
      (docFileOkState env respPath s) e hhop hfail)
  obtain ⟨_, _, _, t₂, ht₂, hdel⟩ := deleteTempFile_spec env respPath (s.log (.parseDoc true))
  refine ⟨heq, (.parseDoc true :: t₂) ++
    [.extractOutlinksCall, .logOutlinkExtractError item.url.str, .bodyClose], ?_, ?_, ?_⟩
  · rw [heq]
    simp only [CState.log_events]
    unfold docFileOkState
    rw [ht₂]
    simp
  · simp
  · intro ev hev
    rcases List.mem_append.mp hev with h | h
    · rcases List.mem_cons.mp h with rfl | h'
      · exact ⟨by simp, fun u => by simp⟩
      · have hx := (hdel ev h').1
        constructor
        · rintro rfl
          simp [Event.isExec] at hx
        · intro u
          rintro rfl
          simp [Event.isExec] at hx
    · rcases List.mem_cons.mp h with rfl | h'
      · exact ⟨by simp, fun u => by simp⟩
      · rcases List.mem_cons.mp h' with rfl | h''
        · exact ⟨by simp, fun u => by simp⟩
        · rcases List.mem_singleton.mp h'' with rfl
          exact ⟨by simp, fun u => by simp⟩

/-- C9, witnessed: outlink extraction fails (`"bad markup"`) at hop 0 — the
error is logged and no asset event appears. -/
theorem claim_C9_witness :
    capturePostFetch baseCrawl failOutlinkEnv itemA respOk "tmp1" urlB s0 =
      (((docFileOkState failOutlinkEnv "tmp1" s0).log .extractOutlinksCall).log
        (.logOutlinkExtractError "http://example.com/a")).log .bodyClose ∧
    ∃ t, (capturePostFetch baseCrawl failOutlinkEnv itemA respOk "tmp1" urlB s0).events =
      s0.events ++ t ∧
      .logOutlinkExtractError "http://example.com/a" ∈ t ∧
      ∀ ev ∈ t, ev ≠ .extractAssetsCall ∧ ∀ u, ev ≠ .captureAssetCall u :=
  claim_C9_outlink_error_aborts baseCrawl failOutlinkEnv itemA respOk "tmp1" urlB s0
    "file-contents" ⟨"doc"⟩ "bad markup" (by decide) (by rfl) (by rfl) (by decide) (by rfl)

/-- C10: queue-depth bookkeeping of the asset phase.  The counter is bumped
once by the number of extracted assets (the `queueIncr n` event), then
decremented exactly once per iteration — `assets.length` many `queueIncr
(-1)` events, including skipped and failed iterations — so the net change is
zero. -/
theorem claim_C10_queue_balance (c : Crawl) (env : Env) (item : Item)
    (resp : HttpResponse) (base : URLm) (doc : Doc) (s : CState)
    (assets : List URLm)
    (hassets : env.extractAssets base doc = .ok assets) :
    (assetPhase c env item resp base doc s).queueCount = s.queueCount ∧
    ∃ t, (assetPhase c env item resp base doc s).events = s.events ++ t ∧
      .queueIncr assets.length ∈ t ∧
      t.count (Event.queueIncr (-1)) = assets.length := by
  rw [assetPhase_ok c env item resp base doc s assets hassets]
  obtain ⟨hq, t, ht, hscope, hcnt⟩ := assetLoop_state c env item resp.cookies assets
    { (s.log .extractAssetsCall).log (.queueIncr assets.length) with
      queueCount := s.queueCount + assets.length }
  refine ⟨?_, .extractAssetsCall :: .queueIncr assets.length :: (t ++ [.bodyClose]),
    ?_, ?_, ?_⟩
  · rw [CState.log_queueCount, hq]
    dsimp only
    omega
  · rw [CState.log_events, ht]
    dsimp only
    simp
  · simp
  · have hne : (Event.queueIncr (assets.length : Int) == Event.queueIncr (-1)) = false := by
      rw [beq_eq_false_iff_ne]
      simp only [ne_eq, Event.queueIncr.injEq]
      omega
    have hne2 : (Event.extractAssetsCall == Event.queueIncr (-1)) = false := rfl
    have hbc : List.count (Event.queueIncr (-1)) [Event.bodyClose] = 0 := rfl
    rw [List.count_cons, List.count_cons, List.count_append, hcnt, hbc, hne, hne2]
    simp

/-- C10, witnessed: two extracted assets (one of them the page itself) leave
the counter at 0 after a `+2` and two `-1` decrements. -/
theorem claim_C10_witness :
    (assetPhase baseCrawl assetsEnv itemA respOk urlB ⟨"doc"⟩ s0).queueCount = 0 ∧
    ∃ t, (assetPhase baseCrawl assetsEnv itemA respOk urlB ⟨"doc"⟩ s0).events =
      s0.events ++ t ∧
      .queueIncr 2 ∈ t ∧
      t.count (Event.queueIncr (-1)) = 2 :=
  claim_C10_queue_balance baseCrawl assetsEnv itemA respOk urlB ⟨"doc"⟩ s0
    [urlB, urlA] (by rfl)

/-- C8: the self-reference guard of the asset loop.  An asset whose URL
string equals the page's own URL is skipped right after the queue decrement
— the iteration reduces to the rest of the loop with no Asset Capturer
invocation; a loop over only self-referencing assets emits nothing but
queue decrements (no capture call, no request, no archive). -/
theorem claim_C8_self_asset_skip (c : Crawl) (env : Env) (item : Item)
    (cookies : List String) :
    (∀ (a : URLm) (rest : List URLm) (s : CState), item.url.str = a.str →
      assetLoop c env item cookies s (a :: rest) =
        assetLoop c env item cookies
          { s.log (.queueIncr (-1)) with queueCount := s.queueCount - 1 } rest) ∧
    (∀ assets : List URLm, (∀ u ∈ assets, item.url.str = u.str) →
      ∀ s : CState, ∃ t, (assetLoop c env item cookies s assets).events =
        s.events ++ t ∧ ∀ e ∈ t, e = .queueIncr (-1)) := by
  constructor
  · intro a rest s h
    exact assetLoop_skip c env item cookies a rest s h
  · intro assets
    induction assets with
    | nil =>
      intro _ s
      exact ⟨[], by simp [assetLoop], by simp⟩
    | cons a rest ih =>
      intro hall s
      rw [assetLoop_skip c env item cookies a rest s (hall a (by simp))]
      obtain ⟨t, ht, hq⟩ := ih (fun u hu => hall u (by simp [hu]))
        { s.log (.queueIncr (-1)) with queueCount := s.queueCount - 1 }
      refine ⟨.queueIncr (-1) :: t, ?_, ?_⟩
      · rw [ht]
        dsimp only
        simp
      · intro e he
        rcases List.mem_cons.mp he with rfl | h'
        · rfl
        · exact hq e h'

/-- C8, witnessed: the single asset `urlA` equals the page's own URL — the
loop reduces to the decremented empty loop and its trace is one decrement. -/
theorem claim_C8_witness :
    (assetLoop baseCrawl baseEnv itemA [] s0 [urlA] =
      assetLoop baseCrawl baseEnv itemA []
        { s0.log (.queueIncr (-1)) with queueCount := s0.queueCount - 1 } []) ∧
    (∃ t, (assetLoop baseCrawl baseEnv itemA [] s0 [urlA]).events = s0.events ++ t ∧
      ∀ e ∈ t, e = .queueIncr (-1)) := by
  obtain ⟨h1, h2⟩ := claim_C8_self_asset_skip baseCrawl baseEnv itemA []
  refine ⟨h1 urlA [] s0 rfl, h2 [urlA] ?_ s0⟩
  intro u hu
  rcases List.mem_singleton.mp hu with rfl
  rfl

end Zeno
